import Mathlib

set_option maxRecDepth 4000

/-!
Verification development for the Trading_Simulator broker core.

The JavaScript source (BrokerService.js, ReplayMarketDataService.js) is
embedded shallowly: JavaScript numbers are modelled as exact rationals
(`ℚ`), `Number(value.toFixed(6))` as decimal rounding to 6 places with
ties rounded to the larger candidate, thrown exceptions as `Option.none`,
and the mutually recursive `placeOrder` / `#refreshAccount` /
`#forceLiquidateLargestPosition` loop as a fuel-indexed recursion.
Wall-clock dates are modelled as an explicit clock parameter, the seeded
RNG as a pre-drawn stream of rationals, and the two floating-point
transcendentals of the source (`Math.sqrt` inside the volatility proxy,
`Math.log10` inside the slippage formula) as abstract function parameters,
since no verified claim depends on their values.
-/

namespace TS

/- Batteries marks the `Rat` field operations `@[irreducible]`, which
blocks elaborator-side evaluation of concrete rational arithmetic in
`decide`-based proofs of witnesses; restore the default reducibility
locally. -/
attribute [local semireducible] Rat.add Rat.mul Rat.sub Rat.inv

/-- Rounding to 6 decimal places, modelling `Number(value.toFixed(6))`
(`roundMoney` in BrokerService.js) over exact rationals. `toFixed` picks
the closest 6-dp decimal and resolves ties toward the larger candidate,
which matches Mathlib `round` (`⌊x + 1/2⌋`) on the scaled value. -/
def round6 (x : ℚ) : ℚ := (round (x * 1000000) : ℤ) / 1000000

lemma round6_int_div (k : ℤ) : round6 ((k : ℚ) / 1000000) = (k : ℚ) / 1000000 := by
  have h : ((k : ℚ) / 1000000) * 1000000 = (k : ℚ) := by
    field_simp
  rw [round6, h, round_intCast]

lemma round6_exists_int (x : ℚ) : ∃ k : ℤ, round6 x = (k : ℚ) / 1000000 :=
  ⟨round (x * 1000000), rfl⟩

lemma round6_idem (x : ℚ) : round6 (round6 x) = round6 x := by
  obtain ⟨k, hk⟩ := round6_exists_int x
  rw [hk, round6_int_div]

lemma round6_add {x y : ℚ} (hx : round6 x = x) (hy : round6 y = y) :
    round6 (x + y) = x + y := by
  obtain ⟨k, hk⟩ := round6_exists_int x
  obtain ⟨m, hm⟩ := round6_exists_int y
  have hx' : x = (k : ℚ) / 1000000 := by rw [← hx, hk]
  have hy' : y = (m : ℚ) / 1000000 := by rw [← hy, hm]
  have hsum : x + y = ((k + m : ℤ) : ℚ) / 1000000 := by
    rw [hx', hy']; push_cast; ring
  rw [hsum, round6_int_div]

lemma round6_neg {x : ℚ} (hx : round6 x = x) : round6 (-x) = -x := by
  obtain ⟨k, hk⟩ := round6_exists_int x
  have hx' : x = (k : ℚ) / 1000000 := by rw [← hx, hk]
  have h : -x = ((-k : ℤ) : ℚ) / 1000000 := by rw [hx']; push_cast; ring
  rw [h, round6_int_div]

lemma round6_sub {x y : ℚ} (hx : round6 x = x) (hy : round6 y = y) :
    round6 (x - y) = x - y := by
  have := round6_add hx (round6_neg hy)
  simpa [sub_eq_add_neg] using this

lemma round6_zero : round6 0 = 0 := by
  have := round6_int_div 0
  simpa using this

lemma round6_mono {x y : ℚ} (h : x ≤ y) : round6 x ≤ round6 y := by
  have hr : round (x * 1000000) ≤ round (y * 1000000) := by
    rw [round_eq, round_eq]
    exact Int.floor_mono (by linarith)
  rw [round6, round6]
  have : ((round (x * 1000000) : ℤ) : ℚ) ≤ ((round (y * 1000000) : ℤ) : ℚ) := by
    exact_mod_cast hr
  linarith

lemma abs_round6_sub (x : ℚ) : |round6 x - x| ≤ 1 / 2000000 := by
  have h := abs_sub_round (x * 1000000)
  have h' : |(round (x * 1000000) : ℚ) - x * 1000000| ≤ 1 / 2 := by
    rw [abs_sub_comm] at h
    exact h
  have hexp : round6 x - x = ((round (x * 1000000) : ℤ) - x * 1000000) / 1000000 := by
    rw [round6]; ring
  rw [hexp, abs_div]
  have habs : |(1000000 : ℚ)| = 1000000 := by norm_num
  rw [habs, div_le_div_iff₀ (by norm_num) (by norm_num)]
  nlinarith [h']

/-- Sign of a rational, as JavaScript `Math.sign` (−1, 0, or 1). -/
def jsign (x : ℚ) : ℤ := if 0 < x then 1 else if x < 0 then -1 else 0

/-- Abstract stand-ins for the two floating-point transcendentals of the
source: `computeVolatilityProxy` (which uses `Math.sqrt`) and `Math.log10`.
No verified claim depends on their values, so the development is
parametrised over them. -/
structure Fns where
  volProxy : List ℚ → ℕ → ℚ
  log10p1 : ℚ → ℚ

/-- Quote returned by the market data provider. The wall-clock `timestamp`
field of the source is omitted from the model (every claim excludes it). -/
structure Quote where
  symbol : String
  bid : ℚ
  ask : ℚ
  mid : ℚ
  spreadBps : ℚ
  volatilityProxy : ℚ
deriving DecidableEq, Repr

/-- Per-symbol entry of the replay provider: configured spread, the mid
series, and the replay cursor. -/
structure SymEntry where
  spreadBps : ℚ
  series : List ℚ
  index : ℕ
deriving DecidableEq, Repr

/-- Replay provider state: association list from symbol to its entry,
modelling the `Map` in ReplayMarketDataService. -/
abbrev Market := List (String × SymEntry)

def lookupSym : Market → String → Option SymEntry
  | [], _ => none
  | p :: rest, s => if p.1 == s then some p.2 else lookupSym rest s

/-- Quote construction following `ReplayMarketDataService.#quote`:
`halfSpread = mid·spreadBps/10000/2`, bid/ask/mid rounded to 6 dp. An
out-of-range cursor (empty series) makes the source throw on `undefined`,
modelled as `none`. -/
def buildQuote (F : Fns) (s : String) (e : SymEntry) : Option Quote :=
  match e.series.get? e.index with
  | none => none
  | some mid =>
    let halfSpread := mid * e.spreadBps / 10000 / 2
    some { symbol := s
           bid := round6 (mid - halfSpread)
           ask := round6 (mid + halfSpread)
           mid := round6 mid
           spreadBps := e.spreadBps
           volatilityProxy := F.volProxy e.series e.index }

/-- Non-advancing read (`peekQuote`): fails on an unknown symbol, never
changes any cursor (it does not even return a market state). -/
def peekQuote (F : Fns) (m : Market) (s : String) : Option Quote :=
  match lookupSym m s with
  | none => none
  | some e => buildQuote F s e

/-- Cursor advance performed by `getQuote`: the entry of `s` moves to
`(index + 1) % series.length`; every other entry is untouched. -/
def advanceSym (m : Market) (s : String) : Market :=
  m.map (fun p =>
    if p.1 == s then (p.1, { p.2 with index := (p.2.index + 1) % p.2.series.length }) else p)

/-- Advancing read (`getQuote`): same quote as `peekQuote`, and on success
the cursor of the requested symbol advances by one (wrapping). On an
unknown symbol the source throws before mutating anything, so no market
state is produced. -/
def getQuote (F : Fns) (m : Market) (s : String) : Option (Quote × Market) :=
  match lookupSym m s with
  | none => none
  | some e => (buildQuote F s e).map (fun q => (q, advanceSym m s))

lemma lookupSym_advance_self (m : Market) (s : String) (e : SymEntry)
    (h : lookupSym m s = some e) :
    lookupSym (advanceSym m s) s =
      some { e with index := (e.index + 1) % e.series.length } := by
  induction m with
  | nil => simp [lookupSym] at h
  | cons p rest ih =>
    by_cases hp : p.1 == s
    · simp only [lookupSym, hp, if_pos, Option.some.injEq] at h
      subst h
      simp [lookupSym, advanceSym, hp]
    · simp only [lookupSym, hp, if_neg, Bool.false_eq_true, if_false] at h
      have := ih h
      simpa [advanceSym, lookupSym, hp] using this

lemma lookupSym_advance_other (m : Market) (s t : String) (hne : t ≠ s) :
    lookupSym (advanceSym m s) t = lookupSym m t := by
  induction m with
  | nil => simp [lookupSym, advanceSym]
  | cons p rest ih =>
    by_cases hp : p.1 == s
    · have hps : p.1 = s := by simpa using hp
      have hpt : (p.1 == t) = false := by
        simp only [beq_eq_false_iff_ne, ne_eq, hps]
        exact fun h => hne h.symm
      simpa [advanceSym, lookupSym, hp, hpt] using ih
    · by_cases hpt : p.1 == t
      · simp [advanceSym, lookupSym, hp, hpt]
      · simpa [advanceSym, lookupSym, hp, hpt] using ih

/-- Signed position of an account (`{symbol, quantity, avgPrice}`). -/
structure Position where
  symbol : String
  quantity : ℚ
  avgPrice : ℚ
deriving DecidableEq

/-- Return value of `updateSignedPosition` (`{quantity, avgPrice}`). -/
structure QtyAvg where
  quantity : ℚ
  avgPrice : ℚ
deriving DecidableEq

/-- Order record. The source ids are strings `ORD-<timestamp>-<rand4>`;
the model keeps only the `<rand4>` component (the wall-clock part carries
no information a claim uses) and uses `-1` for the synthetic
`ORD-<timestamp>-MARGINCALL` marker id. `createdAt`/`filledAt` wall-clock
strings are omitted. -/
structure OrderRec where
  id : ℤ
  symbol : String
  type : String
  side : String
  tif : String
  quantity : ℚ
  limitPrice : Option ℚ
  stopPrice : Option ℚ
  status : String
  reason : Option String
  fillPrice : Option ℚ
  fees : ℚ
  triggerState : Option String
  effectiveType : Option String
deriving DecidableEq

/-- Fill record (`FIL-<timestamp>-<rand4>`; id modelled as the rand
component, timestamp omitted). -/
structure FillRec where
  id : ℤ
  orderId : ℤ
  symbol : String
  side : String
  quantity : ℚ
  price : ℚ
  notional : ℚ
  fees : ℚ
deriving DecidableEq

/-- Pending settlement entry; `settleAt` is an instant on the model clock
(minutes since epoch). -/
structure Settlement where
  amount : ℚ
  direction : String
  settleAt : ℤ
  symbol : String
deriving DecidableEq

/-- Per-account ledger state. `lastBorrowFeeDate` is a day index (the
source keeps an ISO date string). -/
structure Account where
  settledCash : ℚ
  unsettledCash : ℚ
  reservedCash : ℚ
  feesDue : ℚ
  positions : List Position
  orders : List OrderRec
  fills : List FillRec
  pendingSettlements : List Settlement
  lastBorrowFeeDate : ℤ
deriving DecidableEq

/-- Broker configuration fields used by the embedded core. -/
structure Config where
  enforceMarketHours : Bool
  marketOpenHour : ℤ
  marketOpenMinute : ℤ
  marketCloseHour : ℤ
  marketCloseMinute : ℤ
  commissionPerTrade : ℚ
  feeRateBps : ℚ
  baseSlippageBps : ℚ
  sizeImpactBps : ℚ
  randomSlippageBps : ℚ
  initialMarginLong : ℚ
  initialMarginShort : ℚ
  maintenanceMarginLong : ℚ
  maintenanceMarginShort : ℚ
  settlementDaysEquities : ℕ
  shortBorrowDailyRate : ℚ
  forceLiquidationEnabled : Bool

/-- Wall clock instant: day index since 1970-01-01 plus minute of day.
The source reads the process clock (`new Date()`); the model passes the
clock explicitly. -/
structure Clock where
  day : ℤ
  minute : ℤ
deriving DecidableEq

def weekdayOfDay (d : ℤ) : ℤ := (d + 4) % 7

def Clock.weekday (c : Clock) : ℤ := weekdayOfDay c.day

def Clock.instant (c : Clock) : ℤ := c.day * 1440 + c.minute

/-- Seeded RNG modelled as the pre-drawn stream of its outputs; `drawRng`
is one call of `this.rng()`. -/
abbrev Rng := List ℚ

def drawRng : Rng → ℚ × Rng
  | [] => (0, [])
  | x :: r => (x, r)

/-- The `Math.floor(rng() * 10000)` component of generated ids. -/
def idFromDraw (x : ℚ) : ℤ := ⌊x * 10000⌋

/-- Whole broker-simulation state for one account: the shared replay
market, the RNG stream, and the account ledger. -/
structure Sim where
  market : Market
  rng : Rng
  account : Account
deriving DecidableEq

/-- Normalized order input (`normalizeOrderInput`). -/
structure NormOrder where
  type : String
  side : String
  tif : String
  quantity : ℚ
  limitPrice : Option ℚ
  stopPrice : Option ℚ
  symbol : String
deriving DecidableEq

/-- Raw order input to `placeOrder`. Absent string fields are `none`
(JavaScript `undefined`); `bypassMarginCheck` is the internal
`_bypassMarginCheck` flag. -/
structure RawOrder where
  type : Option String
  side : Option String
  tif : Option String
  quantity : ℚ
  limitPrice : Option ℚ
  stopPrice : Option ℚ
  symbol : Option String
  bypassMarginCheck : Bool
deriving DecidableEq

/-- JavaScript `value || dflt` on an optional string (absent and empty
strings are falsy). -/
def jsStringOr (v : Option String) (dflt : String) : String :=
  match v with
  | none => dflt
  | some s => if s = "" then dflt else s

/-- JavaScript `String.prototype.toUpperCase`, written over the character
list (extensionally `String.toUpper`, whose position-indexed auxiliary
does not evaluate definitionally). -/
def jsToUpper (s : String) : String := ⟨s.data.map Char.toUpper⟩

def normalizeOrderInput (input : RawOrder) : NormOrder :=
  { type := jsToUpper (jsStringOr input.type "")
    side := jsToUpper (jsStringOr input.side "")
    tif := jsToUpper (jsStringOr input.tif "DAY")
    quantity := input.quantity
    limitPrice := input.limitPrice
    stopPrice := input.stopPrice
    symbol := jsToUpper (jsStringOr input.symbol "") }

def VALID_TYPES : List String := ["MARKET", "LIMIT", "STOP", "STOP_LIMIT"]

def VALID_SIDES : List String := ["BUY", "SELL", "SELL_SHORT", "BUY_TO_COVER"]

def VALID_TIFS : List String := ["DAY", "GTC", "IOC"]

/-- Validation of `validateOrderByType`; comparisons against absent prices
follow JavaScript (`null` coerces to 0, so `!(null > 0)` rejects). -/
def validateOrderByType (o : NormOrder) : Option String :=
  if o.type ∉ VALID_TYPES then some "unsupported order type"
  else if o.side ∉ VALID_SIDES then some "unsupported side"
  else if o.tif ∉ VALID_TIFS then some "unsupported tif"
  else if ¬ (0 < o.quantity) then some "invalid quantity"
  else if o.type = "LIMIT" ∧ ¬ (0 < o.limitPrice.getD 0) then some "invalid limit price"
  else if o.type = "STOP" ∧ ¬ (0 < o.stopPrice.getD 0) then some "invalid stop price"
  else if o.type = "STOP_LIMIT" ∧ (¬ (0 < o.stopPrice.getD 0) ∨ ¬ (0 < o.limitPrice.getD 0)) then
    some "invalid stop/limit prices"
  else if o.type = "MARKET" ∧ o.tif = "GTC" then some "unsupported order type/tif combination"
  else none

def isMarketOpen (cfg : Config) (now : Clock) : Bool :=
  if !cfg.enforceMarketHours then true
  else if now.weekday = 0 ∨ now.weekday = 6 then false
  else
    let openMinutes := cfg.marketOpenHour * 60 + cfg.marketOpenMinute
    let closeMinutes := cfg.marketCloseHour * 60 + cfg.marketCloseMinute
    decide (openMinutes ≤ now.minute ∧ now.minute ≤ closeMinutes)

def sideIsBuy (side : String) : Bool := side == "BUY" || side == "BUY_TO_COVER"

def calcFees (cfg : Config) (notional : ℚ) : ℚ :=
  round6 (cfg.commissionPerTrade + notional * (cfg.feeRateBps / 10000))

/-- Slippage in bps (`calcSlippageBps`); `random` is the value drawn from
the RNG by the caller, `F.log10p1 q` stands for `Math.log10(1 + q)`. -/
def calcSlippageBps (F : Fns) (cfg : Config) (random quantity volatilityProxy : ℚ) : ℚ :=
  cfg.baseSlippageBps + F.log10p1 quantity * cfg.sizeImpactBps
    + volatilityProxy * 10000 * (5 / 100) + random * cfg.randomSlippageBps

def applyPriceImpact (basePrice : ℚ) (isBuy : Bool) (slippageBps : ℚ) : ℚ :=
  let direction : ℚ := if isBuy then 1 else -1
  round6 (basePrice * (1 + direction * slippageBps / 10000))

/-- Signed position update (`updateSignedPosition`). -/
def updateSignedPosition (existing : Option QtyAvg) (deltaQty fillPrice : ℚ) : QtyAvg :=
  let currentQty := match existing with | some e => e.quantity | none => 0
  let currentAvg := match existing with | some e => e.avgPrice | none => fillPrice
  let nextQty := currentQty + deltaQty
  if currentQty = 0 ∨ jsign currentQty = jsign deltaQty then
    let newQty := currentQty + deltaQty
    let weighted := (|currentQty| * currentAvg + |deltaQty| * fillPrice) / |newQty|
    { quantity := round6 newQty, avgPrice := round6 weighted }
  else if nextQty = 0 then { quantity := 0, avgPrice := 0 }
  else if jsign currentQty = jsign nextQty then
    { quantity := round6 nextQty, avgPrice := round6 currentAvg }
  else { quantity := round6 nextQty, avgPrice := round6 fillPrice }

structure MarginReq where
  initialRequired : ℚ
  maintenanceRequired : ℚ
deriving DecidableEq

def calculateMarginRequirements (cfg : Config) (longValue shortValue : ℚ) : MarginReq :=
  { initialRequired := cfg.initialMarginLong * longValue + cfg.initialMarginShort * shortValue
    maintenanceRequired :=
      cfg.maintenanceMarginLong * longValue + cfg.maintenanceMarginShort * shortValue }

def findPosition (ps : List Position) (s : String) : Option Position :=
  ps.find? (fun p => p.symbol == s)

/-- Object-key update `account.positions[symbol] = …`: replace in place if
the key exists, else append (JavaScript object keys keep insertion
order). -/
def setPosition : List Position → Position → List Position
  | [], q => [q]
  | p :: rest, q => if p.symbol == q.symbol then q :: rest else p :: setPosition rest q

/-- Object-key removal `delete account.positions[symbol]`. -/
def removePosition (ps : List Position) (s : String) : List Position :=
  ps.filter (fun p => !(p.symbol == s))

/-- Advance of the source's `nextBusinessDay` while-loop by one counted
business day: step to the following day, then skip over a weekend (the
next counted day after `d` is `d+1` when it is a weekday, `d+2` when
`d+1` is a Sunday, `d+3` when `d+1` is a Saturday, exactly what the
per-day loop of the source produces). -/
def nextBusinessDayStep (day : ℤ) : ℤ :=
  let d1 := day + 1
  if weekdayOfDay d1 = 6 then d1 + 2
  else if weekdayOfDay d1 = 0 then d1 + 1
  else d1

def nextBusinessDay (now : Clock) (addDays : ℕ) : Clock :=
  { now with day := nextBusinessDayStep^[addDays] now.day }

def availableCash (a : Account) : ℚ :=
  round6 (a.settledCash - a.reservedCash - a.feesDue)

/-- Trade application `#applyTrade`: signed-position update (with deletion
at zero), cash reservation or unsettled credit, settlement scheduling and
fee accrual. -/
def applyTrade (cfg : Config) (now : Clock) (a : Account) (o : NormOrder)
    (fillPrice notional fees : ℚ) : Account :=
  let isBuy := sideIsBuy o.side
  let deltaQty := if isBuy then o.quantity else -o.quantity
  let current : QtyAvg := match findPosition a.positions o.symbol with
    | some p => { quantity := p.quantity, avgPrice := p.avgPrice }
    | none => { quantity := 0, avgPrice := 0 }
  let updated := updateSignedPosition (some current) deltaQty fillPrice
  let positions' :=
    if updated.quantity = 0 then removePosition a.positions o.symbol
    else setPosition a.positions
      { symbol := o.symbol, quantity := updated.quantity, avgPrice := updated.avgPrice }
  let settleAt := (nextBusinessDay now cfg.settlementDaysEquities).instant
  if isBuy then
    { a with positions := positions'
             reservedCash := round6 (a.reservedCash + notional)
             pendingSettlements := a.pendingSettlements
               ++ [{ amount := notional, direction := "DEBIT", settleAt := settleAt, symbol := o.symbol }]
             feesDue := round6 (a.feesDue + fees) }
  else
    { a with positions := positions'
             unsettledCash := round6 (a.unsettledCash + notional)
             pendingSettlements := a.pendingSettlements
               ++ [{ amount := notional, direction := "CREDIT", settleAt := settleAt, symbol := o.symbol }]
             feesDue := round6 (a.feesDue + fees) }

def evaluateTrigger (o : NormOrder) (q : Quote) : String :=
  if o.type == "MARKET" || o.type == "LIMIT" then "NOT_REQUIRED"
  else
    let triggered :=
      if sideIsBuy o.side then decide (o.stopPrice.getD 0 ≤ q.mid)
      else decide (q.mid ≤ o.stopPrice.getD 0)
    if !triggered then "PENDING_TRIGGER"
    else if o.type == "STOP" then "TRIGGERED_TO_MARKET" else "TRIGGERED_TO_LIMIT"

/-- Fill test `#evaluateFillCondition` (returns the `fillable` flag). -/
def evaluateFillCondition (effectiveType : String) (o : NormOrder) (q : Quote) : Bool :=
  if effectiveType == "MARKET" then true
  else if sideIsBuy o.side then decide (q.ask ≤ o.limitPrice.getD 0)
  else decide (o.limitPrice.getD 0 ≤ q.bid)

/-- Rejection `#rejectOrder`: mark the base order REJECTED with the reason
and prepend it to the order history; nothing else changes. -/
def rejectOrder (a : Account) (base : OrderRec) (reason : String) : Account × OrderRec :=
  let o := { base with status := "REJECTED", reason := some reason }
  ({ a with orders := o :: a.orders }, o)

structure Metrics where
  longValue : ℚ
  shortValue : ℚ
  marketValue : ℚ
  equity : ℚ
  initialRequired : ℚ
  maintenanceRequired : ℚ
  marginExcess : ℚ
  availableCash : ℚ
deriving DecidableEq

/-- Metrics `#computeMetrics`: per-position peeks (a failing peek throws in
the source, hence `none`), long/short/market sums, rounded equity and
margin numbers. The accumulating loop of the source is written as sums
over the quantity/mid pairs. -/
def computeMetrics (F : Fns) (cfg : Config) (mkt : Market) (a : Account) : Option Metrics :=
  match a.positions.mapM (fun p => (peekQuote F mkt p.symbol).map (fun q => (p.quantity, q.mid))) with
  | none => none
  | some pm =>
    let longValue := (pm.map (fun x => if 0 < x.1 then x.1 * x.2 else 0)).sum
    let shortValue := (pm.map (fun x => if x.1 < 0 then |x.1| * x.2 else 0)).sum
    let marketValue := (pm.map (fun x => x.1 * x.2)).sum
    let req := calculateMarginRequirements cfg longValue shortValue
    let equity := round6 (a.settledCash + a.unsettledCash + marketValue - a.feesDue)
    some { longValue := round6 longValue
           shortValue := round6 shortValue
           marketValue := round6 marketValue
           equity := equity
           initialRequired := round6 req.initialRequired
           maintenanceRequired := round6 req.maintenanceRequired
           marginExcess := round6 (equity - req.maintenanceRequired)
           availableCash := availableCash a }

def hasMaintenanceDeficiency (m : Metrics) : Bool :=
  decide (m.equity < m.maintenanceRequired)

/-- Application of one due settlement entry (the body of the second loop
of `#settleDueEntries`). -/
def applySettlementEntry (a : Account) (e : Settlement) : Account :=
  if e.direction == "DEBIT" then
    { a with settledCash := round6 (a.settledCash - e.amount)
             reservedCash := round6 (max 0 (a.reservedCash - e.amount)) }
  else
    { a with settledCash := round6 (a.settledCash + e.amount)
             unsettledCash := round6 (a.unsettledCash - e.amount) }

/-- Settlement pass `#settleDueEntries`: split pending entries by
`settleAt ≤ now`, keep the not-yet-due ones, apply the due ones in order,
then drain `feesDue` from settled cash when positive. -/
def settleDueEntries (now : Clock) (a : Account) : Account :=
  let due := a.pendingSettlements.filter (fun e => decide (e.settleAt ≤ now.instant))
  let pending := a.pendingSettlements.filter (fun e => !(decide (e.settleAt ≤ now.instant)))
  let a1 := { a with pendingSettlements := pending }
  let a2 := due.foldl applySettlementEntry a1
  if 0 < a2.feesDue then
    { a2 with settledCash := round6 (a2.settledCash - a2.feesDue), feesDue := 0 }
  else a2

/-- Daily short-borrow accrual `#applyBorrowFeesIfNeeded`. Calendar days
between the stored date and today are counted by the per-day loop of the
source, i.e. `today − lastBorrowFeeDate` when positive. Long positions are
skipped before any peek, matching the `continue` of the source. -/
def applyBorrowFeesIfNeeded (F : Fns) (cfg : Config) (now : Clock) (mkt : Market)
    (a : Account) : Option Account :=
  let today := now.day
  if a.lastBorrowFeeDate = today then some a
  else
    let days : ℤ := if a.lastBorrowFeeDate < today then today - a.lastBorrowFeeDate else 0
    if days ≤ 0 then some { a with lastBorrowFeeDate := today }
    else
      match a.positions.mapM (fun p =>
          if 0 ≤ p.quantity then some (0 : ℚ)
          else (peekQuote F mkt p.symbol).map (fun q => |p.quantity| * q.mid)) with
      | none => none
      | some vals =>
        let borrowFee := round6 (vals.sum * cfg.shortBorrowDailyRate * (days : ℚ))
        let a' := if 0 < borrowFee then { a with feesDue := round6 (a.feesDue + borrowFee) } else a
        some { a' with lastBorrowFeeDate := today }

/-- Stage of `placeOrder` covering source lines 299–329: the post-trade
simulation on a copy of the account (`#simulatePostTrade`, skipped when
`bypass` is set), the rejection on a failed check, and otherwise
`#applyTrade` on the real account followed by recording the FILLED order
and the fill. The final `#refreshAccount` of the fill path is performed by
the caller. The inner `step` value distinguishes a thrown metrics failure
(`none`) from the simulation verdict. -/
def finalizeFill (F : Fns) (cfg : Config) (now : Clock) (st : Sim) (base : OrderRec)
    (o : NormOrder) (bypass : Bool) (triggerState effectiveType : String)
    (fillPrice notional fees : ℚ) : Option (Sim × OrderRec) :=
  let step : Option (Option String) :=
    if bypass then some none
    else
      let draft := applyTrade cfg now st.account o fillPrice notional fees
      match computeMetrics F cfg st.market draft with
      | none => none
      | some m =>
        if availableCash draft < 0 then some (some "insufficient available buying power / margin")
        else if m.equity < m.initialRequired then
          some (some "insufficient available buying power / margin")
        else some none
  match step with
  | none => none
  | some (some reason) =>
    let (a', rej) := rejectOrder st.account base reason
    some ({ st with account := a' }, rej)
  | some none =>
    let a1 := applyTrade cfg now st.account o fillPrice notional fees
    let filled := { base with
                    status := "FILLED"
                    fillPrice := some fillPrice
                    fees := fees
                    triggerState := some triggerState
                    effectiveType := some effectiveType }
    let (d, rng') := drawRng st.rng
    let fill : FillRec := { id := idFromDraw d
                            orderId := filled.id
                            symbol := o.symbol
                            side := o.side
                            quantity := o.quantity
                            price := fillPrice
                            notional := notional
                            fees := fees }
    let a2 := { a1 with orders := filled :: a1.orders, fills := fill :: a1.fills }
    some ({ st with account := a2, rng := rng' }, filled)

/-- Stage of `placeOrder` covering source lines 283–329: the post-delay
advancing re-quote, the effective type, the fill condition (parking the
base order as OPEN when unfilled), slippage pricing with fees, then
`finalizeFill`. -/
def executionPhase (F : Fns) (cfg : Config) (now : Clock) (st : Sim) (base : OrderRec)
    (o : NormOrder) (bypass : Bool) (triggerState : String) : Option (Sim × OrderRec) :=
  match getQuote F st.market o.symbol with
  | none => none
  | some (executionQuote, mkt2) =>
    let st1 := { st with market := mkt2 }
    let effectiveType :=
      if triggerState == "TRIGGERED_TO_MARKET" then "MARKET"
      else if triggerState == "TRIGGERED_TO_LIMIT" then "LIMIT"
      else o.type
    if !(evaluateFillCondition effectiveType o executionQuote) then
      some ({ st1 with account := { st1.account with orders := base :: st1.account.orders } }, base)
    else
      let isBuy := sideIsBuy o.side
      let basePrice := if isBuy then executionQuote.ask else executionQuote.bid
      let (r, rng2) := drawRng st1.rng
      let slippageBps := calcSlippageBps F cfg r o.quantity executionQuote.volatilityProxy
      let fillPrice := applyPriceImpact basePrice isBuy slippageBps
      let notional := round6 (fillPrice * o.quantity)
      let fees := calcFees cfg notional
      finalizeFill F cfg now { st1 with rng := rng2 } base o bypass triggerState effectiveType
        fillPrice notional fees

/-- Liquidation-target selection: the source sorts the valued positions by
`absValue` descending (a stable sort) and takes the first element, i.e.
the first pair attaining the maximal absolute value; a left fold replacing
the best pair only on a strictly larger value computes exactly that. -/
def selectLargest (w : Position × ℚ) (ws : List (Position × ℚ)) : Position × ℚ :=
  ws.foldl (fun best x => if best.2 < x.2 then x else best) w

mutual

/-- Lifecycle refresh `#refreshAccount`: settle due entries, accrue borrow
fees, then (when enabled) recompute metrics and force-liquidate on a
maintenance deficiency. The fuel argument bounds the mutual recursion
through `placeOrder`; exhausted fuel yields `none`. -/
def refreshAccount (F : Fns) (cfg : Config) (now : Clock) :
    ℕ → Sim → Option Sim
  | 0, _ => none
  | fuel + 1, st =>
    let a1 := settleDueEntries now st.account
    match applyBorrowFeesIfNeeded F cfg now st.market a1 with
    | none => none
    | some a2 =>
      let st2 := { st with account := a2 }
      if cfg.forceLiquidationEnabled then
        match computeMetrics F cfg st2.market st2.account with
        | none => none
        | some m =>
          if hasMaintenanceDeficiency m then
            forceLiquidateLargestPosition F cfg now fuel st2
          else some st2
      else some st2
termination_by structural fuel _ => fuel

/-- Forced liquidation `#forceLiquidateLargestPosition`: no-op without
positions; otherwise value every position by a peeked mid, pick the
largest-|quantity·mid| position, submit one internal MARKET IOC order for
its full absolute quantity on the opposite side with the margin-check
bypass flag set, and on a REJECTED outcome prepend the synthetic
margin-call marker order. -/
def forceLiquidateLargestPosition (F : Fns) (cfg : Config) (now : Clock) :
    ℕ → Sim → Option Sim
  | 0, _ => none
  | fuel + 1, st =>
    match st.account.positions with
    | [] => some st
    | p0 :: ps =>
      match (p0 :: ps).mapM
          (fun p => (peekQuote F st.market p.symbol).map (fun q => (p, |p.quantity * q.mid|))) with
      | none => none
      | some [] => some st
      | some (w :: ws) =>
        let target := (selectLargest w ws).1
        let side := if 0 < target.quantity then "SELL" else "BUY_TO_COVER"
        let raw : RawOrder := { type := some "MARKET"
                                side := some side
                                tif := some "IOC"
                                quantity := |target.quantity|
                                limitPrice := none
                                stopPrice := none
                                symbol := some target.symbol
                                bypassMarginCheck := true }
        match placeOrder F cfg now fuel st raw with
        | none => none
        | some (st1, forced) =>
          if forced.status == "REJECTED" then
            let marker : OrderRec :=
              { id := -1
                symbol := target.symbol
                type := "MARKET"
                side := side
                tif := "IOC"
                quantity := |target.quantity|
                limitPrice := none
                stopPrice := none
                status := "REJECTED"
                reason := some "margin_call_forced_liquidation_failed"
                fillPrice := none
                fees := 0
                triggerState := none
                effectiveType := none }
            some { st1 with account := { st1.account with orders := marker :: st1.account.orders } }
          else some st1
termination_by structural fuel _ => fuel

/-- Order placement `placeOrder`: initial refresh, then the post-refresh
pipeline. -/
def placeOrder (F : Fns) (cfg : Config) (now : Clock) :
    ℕ → Sim → RawOrder → Option (Sim × OrderRec)
  | 0, _, _ => none
  | fuel + 1, st, rawOrder =>
    match refreshAccount F cfg now fuel st with
    | none => none
    | some st1 => placeOrderAfterRefresh F cfg now fuel st1 rawOrder
termination_by structural fuel _ _ => fuel

/-- Body of `placeOrder` after the initial `#refreshAccount` (source lines
234–333): normalization, id draw, validation, market hours, first
advancing quote, maintenance guard (skipped under the bypass flag),
trigger evaluation with OPEN parking, then the execution phase; a FILLED
result is followed by the final refresh. -/
def placeOrderAfterRefresh (F : Fns) (cfg : Config) (now : Clock) :
    ℕ → Sim → RawOrder → Option (Sim × OrderRec)
  | 0, _, _ => none
  | fuel + 1, st, rawOrder =>
    let o := normalizeOrderInput rawOrder
    let bypass := rawOrder.bypassMarginCheck
    let (d, rng1) := drawRng st.rng
    let base : OrderRec := { id := idFromDraw d
                             symbol := o.symbol
                             type := o.type
                             side := o.side
                             tif := o.tif
                             quantity := o.quantity
                             limitPrice := o.limitPrice
                             stopPrice := o.stopPrice
                             status := "OPEN"
                             reason := none
                             fillPrice := none
                             fees := 0
                             triggerState := none
                             effectiveType := none }
    let st1 := { st with rng := rng1 }
    match validateOrderByType o with
    | some err =>
      let (a', rej) := rejectOrder st1.account base err
      some ({ st1 with account := a' }, rej)
    | none =>
      if !(isMarketOpen cfg now) then
        let (a', rej) := rejectOrder st1.account base "market closed"
        some ({ st1 with account := a' }, rej)
      else
        match getQuote F st1.market o.symbol with
        | none =>
          let (a', rej) := rejectOrder st1.account base "unknown symbol"
          some ({ st1 with account := a' }, rej)
        | some (quote, mkt1) =>
          let st2 := { st1 with market := mkt1 }
          let check : Option Bool :=
            if bypass then some false
            else (computeMetrics F cfg st2.market st2.account).map hasMaintenanceDeficiency
          match check with
          | none => none
          | some true =>
            let (a', rej) := rejectOrder st2.account base "margin deficiency: account below maintenance"
            some ({ st2 with account := a' }, rej)
          | some false =>
            let triggerState := evaluateTrigger o quote
            if triggerState == "PENDING_TRIGGER" || triggerState == "PENDING_LIMIT" then
              some ({ st2 with account := { st2.account with orders := base :: st2.account.orders } },
                    base)
            else
              match executionPhase F cfg now st2 base o bypass triggerState with
              | none => none
              | some (st3, result) =>
                if result.status == "FILLED" then
                  match refreshAccount F cfg now fuel st3 with
                  | none => none
                  | some st4 => some (st4, result)
                else some (st3, result)
termination_by structural fuel _ _ => fuel

end

/-! Helper lemmas about the embedded operations. -/

lemma findPosition_removePosition (ps : List Position) (s : String) :
    findPosition (removePosition ps s) s = none := by
  induction ps with
  | nil => rfl
  | cons p rest ih =>
    by_cases h : p.symbol == s
    · simpa [removePosition, List.filter_cons, h] using ih
    · simpa [removePosition, findPosition, List.filter_cons, h] using ih

lemma findPosition_setPosition_self (ps : List Position) (pos : Position) :
    findPosition (setPosition ps pos) pos.symbol = some pos := by
  induction ps with
  | nil => simp [setPosition, findPosition, List.find?]
  | cons p rest ih =>
    by_cases h : p.symbol == pos.symbol
    · simp [setPosition, findPosition, List.find?, h]
    · simpa [setPosition, findPosition, List.find?, h] using ih

lemma jsign_neg_ne {x : ℚ} (hx : x ≠ 0) : jsign x ≠ jsign (-x) := by
  rcases lt_trichotomy x 0 with h | h | h
  · rw [jsign, jsign, if_neg (by linarith), if_pos h, if_pos (by linarith : (0 : ℚ) < -x)]
    decide
  · exact absurd h hx
  · rw [jsign, jsign, if_pos h, if_neg (by linarith : ¬ (0 : ℚ) < -x),
      if_pos (by linarith : -x < (0 : ℚ))]
    decide

lemma applyTrade_positions (cfg : Config) (now : Clock) (a : Account) (o : NormOrder)
    (fillPrice notional fees : ℚ) :
    (applyTrade cfg now a o fillPrice notional fees).positions =
      (let deltaQty := if sideIsBuy o.side then o.quantity else -o.quantity
       let current : QtyAvg := match findPosition a.positions o.symbol with
         | some p => { quantity := p.quantity, avgPrice := p.avgPrice }
         | none => { quantity := 0, avgPrice := 0 }
       let updated := updateSignedPosition (some current) deltaQty fillPrice
       if updated.quantity = 0 then removePosition a.positions o.symbol
       else setPosition a.positions
         { symbol := o.symbol, quantity := updated.quantity, avgPrice := updated.avgPrice }) := by
  unfold applyTrade
  cases h : sideIsBuy o.side <;> simp [h]

/-! Exact binary64 arithmetic. The source computes in JavaScript numbers
(IEEE-754 binary64); the rational model above idealises them as exact
rationals with 6-dp rounding. Claims whose truth value depends on sub-ULP
effects are settled against the following exact binary64 semantics:
`fl` is the rounding a JavaScript arithmetic operation applies to the
exact rational value of its result. -/

/-- Floor of the base-2 logarithm by fuelled halving; `floorLog2` passes
the number as its own fuel, which bounds the number of halvings, so the
function is total and evaluates by kernel reduction. -/
def floorLog2Fuel : ℕ → ℕ → ℕ
  | 0, _ => 0
  | f + 1, n => if n ≤ 1 then 0 else floorLog2Fuel f (n / 2) + 1

def floorLog2 (n : ℕ) : ℕ := floorLog2Fuel n n

/-- Integer power of two as a rational. -/
def pow2 (e : ℤ) : ℚ :=
  if 0 ≤ e then (2 : ℚ) ^ e.toNat else 1 / (2 : ℚ) ^ (-e).toNat

/-- Floor of the base-2 logarithm of a positive rational: the numerator
and denominator logarithms bracket it within one, and a single comparison
settles which. -/
def ratFloorLog2 (q : ℚ) : ℤ :=
  let e0 : ℤ := (floorLog2 q.num.toNat : ℤ) - (floorLog2 q.den : ℤ)
  if pow2 e0 ≤ q then e0 else e0 - 1

/-- IEEE-754 binary64 rounding (round to nearest, ties to even) of an
exact rational, for the normal range: the value is scaled to a 53-bit
significand in `[2^52, 2^53)`, rounded to an integer with ties broken to
the even significand, and scaled back. Overflow and subnormals are not
modelled; every value this development feeds `fl` lies well inside the
normal range. -/
def fl (q : ℚ) : ℚ :=
  if q = 0 then 0
  else
    let s := |q|
    let e := ratFloorLog2 s
    let scale := pow2 (52 - e)
    let m := s * scale
    let mf : ℤ := ⌊m⌋
    let r := m - (mf : ℚ)
    let m2 := if r < 1 / 2 then mf
              else if 1 / 2 < r then mf + 1
              else if mf % 2 = 0 then mf else mf + 1
    (if 0 < q then 1 else -1) * (m2 : ℚ) / scale

/-- `roundMoney` (`Number(x.toFixed(6))`) on a binary64 value: `toFixed(6)`
prints the exact decimal rounding of the double (no double is an odd
multiple of 5·10⁻⁷, so the tie-breaking rule of `toFixed` is never
exercised), and `Number` parses the decimal back to the nearest double. -/
def flRoundMoney (x : ℚ) : ℚ := fl (round6 x)

/-- `updateSignedPosition` in exact binary64 semantics: the rational model
above with every JavaScript arithmetic operation wrapped in `fl`
(`Math.abs` and negation are exact on doubles). -/
def flUpdateSignedPosition (existing : Option QtyAvg) (deltaQty fillPrice : ℚ) : QtyAvg :=
  let currentQty := match existing with | some e => e.quantity | none => 0
  let currentAvg := match existing with | some e => e.avgPrice | none => fillPrice
  let nextQty := fl (currentQty + deltaQty)
  if currentQty = 0 ∨ jsign currentQty = jsign deltaQty then
    let newQty := fl (currentQty + deltaQty)
    let weighted := fl (fl (fl (|currentQty| * currentAvg) + fl (|deltaQty| * fillPrice))
      / |newQty|)
    { quantity := flRoundMoney newQty, avgPrice := flRoundMoney weighted }
  else if nextQty = 0 then { quantity := 0, avgPrice := 0 }
  else if jsign currentQty = jsign nextQty then
    { quantity := flRoundMoney nextQty, avgPrice := flRoundMoney currentAvg }
  else { quantity := flRoundMoney nextQty, avgPrice := flRoundMoney fillPrice }

/-- The position bookkeeping of `#applyTrade` (the signed-position update
with deletion at zero; the cash, settlement and fee lines of the source do
not touch `positions`) in exact binary64 semantics. Negating the order
quantity for sells is exact on doubles. -/
def flApplyTradePositions (ps : List Position) (o : NormOrder) (fillPrice : ℚ) : List Position :=
  let deltaQty := if sideIsBuy o.side then o.quantity else -o.quantity
  let current : QtyAvg := match findPosition ps o.symbol with
    | some p => { quantity := p.quantity, avgPrice := p.avgPrice }
    | none => { quantity := 0, avgPrice := 0 }
  let updated := flUpdateSignedPosition (some current) deltaQty fillPrice
  if updated.quantity = 0 then removePosition ps o.symbol
  else setPosition ps
    { symbol := o.symbol, quantity := updated.quantity, avgPrice := updated.avgPrice }

/-! Claim theorems. -/

/-- C1 (amended): the signed-position update for raw, unrounded fill
quantities. For an existing position `{q, a}` (6-dp stored average,
`a > 0` when `q ≠ 0`), a nonzero signed fill quantity `d` and a fill
price `p > 0`: when `q = 0` or `sign q = sign d` the new quantity is
`roundMoney (q + d)` with weighted average price
`(|q|·a + |d|·p)/|q + d|` rounded to 6 dp; when `q + d = 0` the update
returns quantity `0` and `#applyTrade` deletes the entry from the
account; when `q + d` keeps the sign of `q` the quantity is
`roundMoney (q + d)` and the average price stays `a`; otherwise (sign
flip with residual) the quantity is `roundMoney (q + d)` and the average
price is reseeded to `roundMoney p`; and `#applyTrade` deletes the entry
whenever the returned quantity is `0`. The claim states the unrounded
quantity `q + d`, which fails for non-6-dp `d` — see the
counterexample. -/
theorem C1_signed_position_update
    (q a d p : ℚ)
    (ha6 : round6 a = a)
    (hapos : q ≠ 0 → 0 < a) (hd : d ≠ 0) (hp : 0 < p)
    (cfg : Config) (now : Clock) (acct : Account) (o : NormOrder) (notional fees : ℚ)
    (hpos : findPosition acct.positions o.symbol
      = some { symbol := o.symbol, quantity := q, avgPrice := a })
    (hdelta : (if sideIsBuy o.side then o.quantity else -o.quantity) = d) :
    ((q = 0 ∨ jsign q = jsign d) →
      updateSignedPosition (some { quantity := q, avgPrice := a }) d p =
        { quantity := round6 (q + d), avgPrice := round6 ((|q| * a + |d| * p) / |q + d|) }) ∧
    (q + d = 0 → q ≠ 0 →
      updateSignedPosition (some { quantity := q, avgPrice := a }) d p =
        { quantity := 0, avgPrice := 0 } ∧
      findPosition (applyTrade cfg now acct o p notional fees).positions o.symbol = none) ∧
    (¬(q = 0 ∨ jsign q = jsign d) → q + d ≠ 0 → jsign (q + d) = jsign q →
      updateSignedPosition (some { quantity := q, avgPrice := a }) d p =
        { quantity := round6 (q + d), avgPrice := a }) ∧
    (¬(q = 0 ∨ jsign q = jsign d) → q + d ≠ 0 → jsign (q + d) ≠ jsign q →
      updateSignedPosition (some { quantity := q, avgPrice := a }) d p =
        { quantity := round6 (q + d), avgPrice := round6 p }) ∧
    ((updateSignedPosition (some { quantity := q, avgPrice := a }) d p).quantity = 0 →
      findPosition (applyTrade cfg now acct o p notional fees).positions o.symbol = none) := by
  refine ⟨?_, ?_, ?_, ?_, ?_⟩
  · intro hc
    simp only [updateSignedPosition, if_pos hc]
  · intro hsum hqne
    have hsign : ¬(q = 0 ∨ jsign q = jsign d) := by
      rintro (h0 | hs)
      · exact hqne h0
      · have hdq : d = -q := by linarith
        exact jsign_neg_ne hqne (hdq ▸ hs)
    have hupd : updateSignedPosition (some { quantity := q, avgPrice := a }) d p =
        { quantity := 0, avgPrice := 0 } := by
      simp only [updateSignedPosition, if_neg hsign, if_pos hsum]
    refine ⟨hupd, ?_⟩
    rw [applyTrade_positions]
    simp only [hpos, hdelta, hupd]
    exact findPosition_removePosition acct.positions o.symbol
  · intro hsign hne hsame
    simp only [updateSignedPosition, if_neg hsign, if_neg hne, if_pos hsame.symm]
    exact congrArg₂ QtyAvg.mk rfl ha6
  · intro hsign hne hdiff
    have hdiff2 : ¬ jsign q = jsign (q + d) := fun h => hdiff h.symm
    simp only [updateSignedPosition, if_neg hsign, if_neg hne, if_neg hdiff2]
  · intro h0
    rw [applyTrade_positions]
    simp only [hpos, hdelta]
    rw [if_pos h0]
    exact findPosition_removePosition acct.positions o.symbol

/-- C1 witness: a same-sign addition with the raw non-6-dp quantity
d = 0.0000014 (q = 10 at avg 5, price 6): the new quantity is the 6-dp
rounding of q + d. -/
theorem C1_signed_position_update_witness :
    updateSignedPosition (some { quantity := 10, avgPrice := 5 }) (14 / 10000000) 6 =
      { quantity := round6 (10 + 14 / 10000000),
        avgPrice := round6 ((|(10 : ℚ)| * 5 + |(14 / 10000000 : ℚ)| * 6)
          / |(10 : ℚ) + 14 / 10000000|) } := by
  have h := C1_signed_position_update 10 5 (14 / 10000000) 6 (by decide)
    (fun _ => by norm_num) (by norm_num) (by norm_num)
    { enforceMarketHours := false, marketOpenHour := 9, marketOpenMinute := 0,
      marketCloseHour := 17, marketCloseMinute := 0, commissionPerTrade := 0, feeRateBps := 0,
      baseSlippageBps := 0, sizeImpactBps := 0, randomSlippageBps := 0, initialMarginLong := 0,
      initialMarginShort := 0, maintenanceMarginLong := 0, maintenanceMarginShort := 0,
      settlementDaysEquities := 0, shortBorrowDailyRate := 0, forceLiquidationEnabled := false }
    { day := 0, minute := 0 }
    { settledCash := 0, unsettledCash := 0, reservedCash := 0, feesDue := 0,
      positions := [{ symbol := "A", quantity := 10, avgPrice := 5 }], orders := [], fills := [],
      pendingSettlements := [], lastBorrowFeeDate := 0 }
    { type := "MARKET", side := "BUY", tif := "DAY", quantity := 14 / 10000000,
      limitPrice := none, stopPrice := none, symbol := "A" }
    0 0 (by decide) (by decide)
  exact h.1 (Or.inr (by decide))

/-- C1 counterexample to the claim as stated: the fill quantity is raw
user input, and for the non-6-dp quantity d = 0.0000014 a buy into a flat
position returns the 6-dp rounding 0.000001 of `q + d`, not `q + d`. The
first two conjuncts state the same run in exact binary64 semantics — the
nearest double to 0.0000014 is within 10⁻²¹ of it and far from the
0.0000015 rounding midpoint, so the source computes the same 0.000001 —
and the last two state it in the rational model. -/
theorem C1_counterexample :
    (flUpdateSignedPosition (some { quantity := 0, avgPrice := 0 })
        (fl (14 / 10000000)) 10).quantity = fl (1 / 1000000) ∧
    fl (1 / 1000000) ≠ 0 + fl (14 / 10000000) ∧
    (updateSignedPosition (some { quantity := 0, avgPrice := 0 })
        (14 / 10000000) 10).quantity = 1 / 1000000 ∧
    (1 / 1000000 : ℚ) ≠ 0 + 14 / 10000000 := by decide

lemma round6_eq_div (x : ℚ) (k : ℤ) (h1 : (k : ℚ) ≤ x * 1000000 + 1 / 2)
    (h2 : x * 1000000 + 1 / 2 < (k : ℚ) + 1) : round6 x = (k : ℚ) / 1000000 := by
  rw [round6, round_eq, Int.floor_eq_iff.mpr ⟨h1, h2⟩]

lemma round6_intCast (k : ℤ) : round6 (k : ℚ) = k := by
  have h : (k : ℚ) * 1000000 = ((k * 1000000 : ℤ) : ℚ) := by push_cast; ring
  rw [round6, h, round_intCast]
  push_cast
  field_simp

lemma applyTrade_open_position (cfg : Config) (now : Clock) (acct : Account) (o : NormOrder)
    (p pnot fee n : ℚ) (hn : n ≠ 0) (hn6 : round6 n = n)
    (habsent : findPosition acct.positions o.symbol = none)
    (hdelta : (if sideIsBuy o.side then o.quantity else -o.quantity) = n) :
    ∃ avg, (applyTrade cfg now acct o p pnot fee).positions =
      setPosition acct.positions { symbol := o.symbol, quantity := n, avgPrice := avg } := by
  rw [applyTrade_positions]
  simp only [habsent, hdelta]
  have hupd : updateSignedPosition (some { quantity := 0, avgPrice := 0 }) n p =
      { quantity := n, avgPrice := round6 ((|(0 : ℚ)| * 0 + |n| * p) / |0 + n|) } := by
    simp only [updateSignedPosition]
    simp [hn6]
  rw [hupd]
  simp only [if_neg hn]
  exact ⟨_, rfl⟩

lemma applyTrade_close_position (cfg : Config) (now : Clock) (acct : Account) (o : NormOrder)
    (p pnot fee n avg : ℚ) (hn : n ≠ 0)
    (hfound : findPosition acct.positions o.symbol =
      some { symbol := o.symbol, quantity := n, avgPrice := avg })
    (hdelta : (if sideIsBuy o.side then o.quantity else -o.quantity) = -n) :
    (applyTrade cfg now acct o p pnot fee).positions = removePosition acct.positions o.symbol := by
  rw [applyTrade_positions]
  simp only [hfound, hdelta]
  have hcond : ¬(n = 0 ∨ jsign n = jsign (-n)) := by
    rintro (h0 | hs)
    · exact hn h0
    · exact jsign_neg_ne hn hs
  have hupd : updateSignedPosition (some { quantity := n, avgPrice := avg }) (-n) p =
      { quantity := 0, avgPrice := 0 } := by
    simp only [updateSignedPosition, if_neg hcond, add_neg_cancel]
    simp
  rw [hupd]
  simp

/-- C9 (amended): the flat round trip needs a 6-dp quantity. For every
account with no position in the symbol and every `n > 0` with
`round6 n = n`, a filled BUY of `n` followed by a filled SELL of `n`
leaves the position entry absent, and likewise SELL_SHORT of `n` followed
by BUY_TO_COVER of `n`, regardless of the two fill prices. (For a
non-6-dp quantity the first fill is rounded, the second trade leaves a
rounded residual, and the entry survives — see the counterexample.) -/
theorem C9_round_trip_flat (cfg : Config) (now1 now2 : Clock) (acct : Account) (sym : String)
    (n p1 p2 not1 not2 fee1 fee2 : ℚ) (hn : 0 < n) (hn6 : round6 n = n)
    (habsent : findPosition acct.positions sym = none)
    (o1 o2 : NormOrder)
    (hsides : (o1.side = "BUY" ∧ o2.side = "SELL") ∨
      (o1.side = "SELL_SHORT" ∧ o2.side = "BUY_TO_COVER"))
    (hq1 : o1.quantity = n) (hq2 : o2.quantity = n)
    (hs1 : o1.symbol = sym) (hs2 : o2.symbol = sym) :
    findPosition (applyTrade cfg now2 (applyTrade cfg now1 acct o1 p1 not1 fee1)
      o2 p2 not2 fee2).positions sym = none := by
  subst hs1
  have hne : n ≠ 0 := ne_of_gt hn
  rcases hsides with ⟨h1, h2⟩ | ⟨h1, h2⟩
  · obtain ⟨avg1, hpos1⟩ := applyTrade_open_position cfg now1 acct o1 p1 not1 fee1 n hne hn6
      habsent (by simp [h1, sideIsBuy, hq1])
    have hfound : findPosition (applyTrade cfg now1 acct o1 p1 not1 fee1).positions o2.symbol =
        some { symbol := o2.symbol, quantity := n, avgPrice := avg1 } := by
      rw [hpos1, hs2]
      have := findPosition_setPosition_self acct.positions
        { symbol := o1.symbol, quantity := n, avgPrice := avg1 }
      simpa [hs2] using this
    have hclose := applyTrade_close_position cfg now2
      (applyTrade cfg now1 acct o1 p1 not1 fee1) o2 p2 not2 fee2 n avg1 hne hfound
      (by simp [h2, sideIsBuy, hq2])
    rw [hclose, hs2]
    exact findPosition_removePosition _ _
  · obtain ⟨avg1, hpos1⟩ := applyTrade_open_position cfg now1 acct o1 p1 not1 fee1 (-n)
      (neg_ne_zero.mpr hne) (round6_neg hn6) habsent (by simp [h1, sideIsBuy, hq1])
    have hfound : findPosition (applyTrade cfg now1 acct o1 p1 not1 fee1).positions o2.symbol =
        some { symbol := o2.symbol, quantity := -n, avgPrice := avg1 } := by
      rw [hpos1, hs2]
      have := findPosition_setPosition_self acct.positions
        { symbol := o1.symbol, quantity := -n, avgPrice := avg1 }
      simpa [hs2] using this
    have hclose := applyTrade_close_position cfg now2
      (applyTrade cfg now1 acct o1 p1 not1 fee1) o2 p2 not2 fee2 (-n) avg1
      (neg_ne_zero.mpr hne) hfound (by simp [h2, sideIsBuy, hq2])
    rw [hclose, hs2]
    exact findPosition_removePosition _ _

/-- Concrete abstract-function instance used by witnesses: zero volatility
proxy and zero log term. -/
def fnsZero : Fns := { volProxy := fun _ _ => 0, log10p1 := fun _ => 0 }

/-- Concrete broker configuration used by witnesses: market hours off, all
fees, slippage and margin ratios zero, T+0 settlement, liquidation off. -/
def cfgZero : Config :=
  { enforceMarketHours := false, marketOpenHour := 9, marketOpenMinute := 0,
    marketCloseHour := 17, marketCloseMinute := 0, commissionPerTrade := 0, feeRateBps := 0,
    baseSlippageBps := 0, sizeImpactBps := 0, randomSlippageBps := 0, initialMarginLong := 0,
    initialMarginShort := 0, maintenanceMarginLong := 0, maintenanceMarginShort := 0,
    settlementDaysEquities := 0, shortBorrowDailyRate := 0, forceLiquidationEnabled := false }

def clock0 : Clock := { day := 0, minute := 600 }

def emptyAccount : Account :=
  { settledCash := 0, unsettledCash := 0, reservedCash := 0, feesDue := 0, positions := [],
    orders := [], fills := [], pendingSettlements := [], lastBorrowFeeDate := 0 }

/-- C9 witness: buy 1 then sell 1 of a fresh symbol at prices 10 and 12
leaves no position entry. -/
theorem C9_round_trip_flat_witness :
    findPosition (applyTrade cfgZero clock0 (applyTrade cfgZero clock0 emptyAccount
      { type := "MARKET", side := "BUY", tif := "DAY", quantity := 1, limitPrice := none,
        stopPrice := none, symbol := "A" } 10 10 0)
      { type := "MARKET", side := "SELL", tif := "DAY", quantity := 1, limitPrice := none,
        stopPrice := none, symbol := "A" } 12 12 0).positions "A" = none :=
  C9_round_trip_flat cfgZero clock0 clock0 emptyAccount "A" 1 10 12 10 12 0 0
    (by norm_num) (by decide) rfl _ _ (Or.inl ⟨rfl, rfl⟩) rfl rfl rfl rfl

lemma applyTrade_positions_of_none (cfg : Config) (now : Clock) (acct : Account) (o : NormOrder)
    (p pnot fee : ℚ) (habsent : findPosition acct.positions o.symbol = none) :
    (applyTrade cfg now acct o p pnot fee).positions =
      (let updated := updateSignedPosition (some { quantity := 0, avgPrice := 0 })
          (if sideIsBuy o.side then o.quantity else -o.quantity) p
       if updated.quantity = 0 then removePosition acct.positions o.symbol
       else setPosition acct.positions
         { symbol := o.symbol, quantity := updated.quantity, avgPrice := updated.avgPrice }) := by
  rw [applyTrade_positions]
  simp only [habsent]

lemma applyTrade_positions_of_some (cfg : Config) (now : Clock) (acct : Account) (o : NormOrder)
    (p pnot fee : ℚ) (pos : Position)
    (hfound : findPosition acct.positions o.symbol = some pos) :
    (applyTrade cfg now acct o p pnot fee).positions =
      (let updated := updateSignedPosition
          (some { quantity := pos.quantity, avgPrice := pos.avgPrice })
          (if sideIsBuy o.side then o.quantity else -o.quantity) p
       if updated.quantity = 0 then removePosition acct.positions o.symbol
       else setPosition acct.positions
         { symbol := o.symbol, quantity := updated.quantity, avgPrice := updated.avgPrice }) := by
  rw [applyTrade_positions]
  simp only [hfound]

/-- C9 counterexample to the claim as stated, in exact binary64
arithmetic: for the raw quantity 0.0000045 the nearest double lies just
above 4.5·10⁻⁶, so a filled BUY of it (price 10) books the 6-dp rounding
0.000005; the SELL of the same quantity (price 12) leaves a residual that
computes to just above 5·10⁻⁷, and `roundMoney` books a surviving
0.000001 position instead of deleting the entry — refuting the claim's
"every quantity n > 0 … regardless of the two fill prices". -/
theorem C9_counterexample :
    0 < fl (45 / 10000000) ∧
    findPosition emptyAccount.positions "A" = none ∧
    flApplyTradePositions
        (flApplyTradePositions emptyAccount.positions
          { type := "MARKET", side := "BUY", tif := "DAY", quantity := fl (45 / 10000000),
            limitPrice := none, stopPrice := none, symbol := "A" } 10)
        { type := "MARKET", side := "SELL", tif := "DAY", quantity := fl (45 / 10000000),
          limitPrice := none, stopPrice := none, symbol := "A" } 12
      = [{ symbol := "A", quantity := fl (1 / 1000000), avgPrice := 10 }] ∧
    fl (1 / 1000000) ≠ 0 := by decide

lemma round6_max0 {x : ℚ} (hx : round6 x = x) : round6 (max 0 x) = max 0 x := by
  rcases le_total x 0 with h0 | h0
  · rw [max_eq_left h0, round6_zero]
  · rw [max_eq_right h0, hx]

lemma applySettlementEntry_frame (a : Account) (e : Settlement) :
    (applySettlementEntry a e).feesDue = a.feesDue ∧
    (applySettlementEntry a e).pendingSettlements = a.pendingSettlements := by
  rw [applySettlementEntry]
  split <;> exact ⟨rfl, rfl⟩

lemma foldl_settle_frame : ∀ (l : List Settlement) (a : Account),
    (l.foldl applySettlementEntry a).feesDue = a.feesDue ∧
    (l.foldl applySettlementEntry a).pendingSettlements = a.pendingSettlements
  | [], _ => ⟨rfl, rfl⟩
  | e :: l, a => by
    have h1 := applySettlementEntry_frame a e
    have h2 := foldl_settle_frame l (applySettlementEntry a e)
    exact ⟨h2.1.trans h1.1, h2.2.trans h1.2⟩

lemma foldl_settle_settled_money6 : ∀ (l : List Settlement) (a : Account),
    round6 a.settledCash = a.settledCash →
    round6 (l.foldl applySettlementEntry a).settledCash
      = (l.foldl applySettlementEntry a).settledCash
  | [], _, h => h
  | e :: l, a, _ => by
    apply foldl_settle_settled_money6 l
    rw [applySettlementEntry]
    split <;> exact round6_idem _

/-- C3: one refresh settlement pass. Entries with `settleAt ≤ now` are
removed from `pendingSettlements` and applied in order (DEBIT:
`settledCash −= amount`, `reservedCash = max 0 (reservedCash − amount)`;
CREDIT: `settledCash += amount`, `unsettledCash −= amount`), entries with
`settleAt > now` are kept unchanged, and afterwards `feesDue` is
unconditionally drained from `settledCash` and set to 0. The per-entry
equalities are exact for 6-dp stored values; the unconditional drain needs
`feesDue ≥ 0` (the source guards the drain by `feesDue > 0`, which agrees
with the claim exactly when `feesDue` cannot be negative, as it never is:
it only accumulates rounded nonnegative fees). -/
theorem C3_settlement (now : Clock) (a : Account)
    (hfee : 0 ≤ a.feesDue) (hfee6 : round6 a.feesDue = a.feesDue)
    (hs6 : round6 a.settledCash = a.settledCash) :
    (∀ (acc : Account) (e : Settlement), e.direction = "DEBIT" →
      round6 acc.settledCash = acc.settledCash → round6 acc.reservedCash = acc.reservedCash →
      round6 e.amount = e.amount →
      (applySettlementEntry acc e).settledCash = acc.settledCash - e.amount ∧
      (applySettlementEntry acc e).reservedCash = max 0 (acc.reservedCash - e.amount) ∧
      (applySettlementEntry acc e).unsettledCash = acc.unsettledCash) ∧
    (∀ (acc : Account) (e : Settlement), e.direction = "CREDIT" →
      round6 acc.settledCash = acc.settledCash → round6 acc.unsettledCash = acc.unsettledCash →
      round6 e.amount = e.amount →
      (applySettlementEntry acc e).settledCash = acc.settledCash + e.amount ∧
      (applySettlementEntry acc e).unsettledCash = acc.unsettledCash - e.amount ∧
      (applySettlementEntry acc e).reservedCash = acc.reservedCash) ∧
    ((settleDueEntries now a).pendingSettlements
      = a.pendingSettlements.filter (fun e => !(decide (e.settleAt ≤ now.instant)))) ∧
    (∀ afterDue : Account,
      afterDue = (a.pendingSettlements.filter
          (fun e => decide (e.settleAt ≤ now.instant))).foldl applySettlementEntry
        { a with pendingSettlements := (a.pendingSettlements.filter
            (fun e => !(decide (e.settleAt ≤ now.instant)))) } →
      (settleDueEntries now a).settledCash = afterDue.settledCash - a.feesDue ∧
      (settleDueEntries now a).feesDue = 0 ∧
      (settleDueEntries now a).unsettledCash = afterDue.unsettledCash ∧
      (settleDueEntries now a).reservedCash = afterDue.reservedCash) := by
  refine ⟨?_, ?_, ?_, ?_⟩
  · intro acc e hdir h1 h2 h3
    rw [applySettlementEntry]
    rw [hdir]
    rw [if_pos (beq_self_eq_true "DEBIT")]
    exact ⟨round6_sub h1 h3, round6_max0 (round6_sub h2 h3), rfl⟩
  · intro acc e hdir h1 h2 h3
    rw [applySettlementEntry]
    rw [hdir]
    rw [if_neg (by decide : ¬ (("CREDIT" == "DEBIT") = true))]
    exact ⟨round6_add h1 h3, round6_sub h2 h3, rfl⟩
  · rw [settleDueEntries]
    set a1 : Account := { a with pendingSettlements := (a.pendingSettlements.filter
        (fun e => !(decide (e.settleAt ≤ now.instant)))) } with ha1
    have hfold := (foldl_settle_frame (a.pendingSettlements.filter
        (fun e => decide (e.settleAt ≤ now.instant))) a1).2
    split
    · simpa [ha1] using hfold
    · simpa [ha1] using hfold
  · intro afterDue had
    set due := a.pendingSettlements.filter (fun e => decide (e.settleAt ≤ now.instant)) with hdue
    set a1 : Account := { a with pendingSettlements := (a.pendingSettlements.filter
        (fun e => !(decide (e.settleAt ≤ now.instant)))) } with ha1
    have hfees : (due.foldl applySettlementEntry a1).feesDue = a.feesDue := by
      rw [(foldl_settle_frame due a1).1]
    have hmoney : round6 (due.foldl applySettlementEntry a1).settledCash
        = (due.foldl applySettlementEntry a1).settledCash :=
      foldl_settle_settled_money6 due a1 hs6
    rw [settleDueEntries]
    rw [← hdue, ← ha1]
    by_cases hpos : 0 < (due.foldl applySettlementEntry a1).feesDue
    · rw [if_pos hpos]
      subst had
      refine ⟨?_, rfl, rfl, rfl⟩
      rw [hfees, round6_sub hmoney hfee6]
    · rw [if_neg hpos]
      have hzero : a.feesDue = 0 := by
        rw [hfees] at hpos
        linarith
      subst had
      refine ⟨?_, ?_, rfl, rfl⟩
      · rw [hzero, sub_zero]
      · rw [hfees, hzero]

/-- C3 witness: an account with a due DEBIT entry, a future CREDIT entry
and pending fees; after the pass only the future entry remains and the
fees are drained. -/
theorem C3_settlement_witness :
    (settleDueEntries { day := 10, minute := 0 }
      { settledCash := 100, unsettledCash := 7, reservedCash := 30, feesDue := 2,
        positions := [], orders := [], fills := [],
        pendingSettlements :=
          [{ amount := 30, direction := "DEBIT", settleAt := 100, symbol := "A" },
           { amount := 7, direction := "CREDIT", settleAt := 99999, symbol := "A" }],
        lastBorrowFeeDate := 0 }).pendingSettlements
      = [{ amount := 7, direction := "CREDIT", settleAt := 99999, symbol := "A" }] ∧
    (settleDueEntries { day := 10, minute := 0 }
      { settledCash := 100, unsettledCash := 7, reservedCash := 30, feesDue := 2,
        positions := [], orders := [], fills := [],
        pendingSettlements :=
          [{ amount := 30, direction := "DEBIT", settleAt := 100, symbol := "A" },
           { amount := 7, direction := "CREDIT", settleAt := 99999, symbol := "A" }],
        lastBorrowFeeDate := 0 }).feesDue = 0 := by
  have h := C3_settlement { day := 10, minute := 0 }
    { settledCash := 100, unsettledCash := 7, reservedCash := 30, feesDue := 2,
      positions := [], orders := [], fills := [],
      pendingSettlements :=
        [{ amount := 30, direction := "DEBIT", settleAt := 100, symbol := "A" },
         { amount := 7, direction := "CREDIT", settleAt := 99999, symbol := "A" }],
      lastBorrowFeeDate := 0 }
    (by norm_num) (by decide) (by decide)
  refine ⟨?_, (h.2.2.2 _ rfl).2.1⟩
  rw [h.2.2.1]
  decide

/-- Account summary view (`#toAccountView`); the `id`/`createdAt` strings
of the source are omitted. -/
structure AccountView where
  settledCash : ℚ
  unsettledCash : ℚ
  availableCash : ℚ
  reservedCash : ℚ
  equity : ℚ
  longValue : ℚ
  shortValue : ℚ
  initialRequired : ℚ
  maintenanceRequired : ℚ
  marginExcess : ℚ
  feesDue : ℚ
  openPositions : ℕ
  openOrders : ℕ
deriving DecidableEq

/-- Read-side projection `#toAccountView`: metrics plus rounded balances,
the count of positions and the count of OPEN orders. -/
def toAccountView (F : Fns) (cfg : Config) (mkt : Market) (a : Account) : Option AccountView :=
  (computeMetrics F cfg mkt a).map (fun m =>
    { settledCash := round6 a.settledCash
      unsettledCash := round6 a.unsettledCash
      availableCash := round6 m.availableCash
      reservedCash := round6 a.reservedCash
      equity := m.equity
      longValue := m.longValue
      shortValue := m.shortValue
      initialRequired := m.initialRequired
      maintenanceRequired := m.maintenanceRequired
      marginExcess := m.marginExcess
      feesDue := round6 a.feesDue
      openPositions := a.positions.length
      openOrders := (a.orders.filter (fun o => o.status == "OPEN")).length })

/-- C4: at every observation point — every `#computeMetrics` call and every
account view — `availableCash = round6(settledCash − reservedCash −
feesDue)` and `equity = round6(settledCash + unsettledCash + Σ(qty·mid) −
feesDue)`, the sum ranging over the account's positions with each mid
taken from the peeked quote. -/
theorem C4_metrics_invariant (F : Fns) (cfg : Config) (mkt : Market) (a : Account)
    (m : Metrics) (pm : List (ℚ × ℚ))
    (hm : computeMetrics F cfg mkt a = some m)
    (hpm : a.positions.mapM
      (fun p => (peekQuote F mkt p.symbol).map (fun q => (p.quantity, q.mid))) = some pm) :
    m.availableCash = round6 (a.settledCash - a.reservedCash - a.feesDue) ∧
    m.equity = round6 (a.settledCash + a.unsettledCash
      + (pm.map (fun x => x.1 * x.2)).sum - a.feesDue) ∧
    (∀ v, toAccountView F cfg mkt a = some v →
      v.availableCash = round6 (a.settledCash - a.reservedCash - a.feesDue) ∧
      v.equity = round6 (a.settledCash + a.unsettledCash
        + (pm.map (fun x => x.1 * x.2)).sum - a.feesDue)) := by
  have hmo := hm
  rw [computeMetrics, hpm] at hm
  simp only [Option.some.injEq] at hm
  subst hm
  refine ⟨rfl, rfl, ?_⟩
  intro v hv
  rw [toAccountView, hmo] at hv
  simp only [Option.map_some', Option.some.injEq] at hv
  subst hv
  exact ⟨round6_idem _, rfl⟩

/-- C4 witness: an account with a long position of 2 at mid 10 and cash
100/10/20/1; availableCash = 79 and equity = 129. -/
theorem C4_metrics_invariant_witness :
    ∃ m : Metrics, computeMetrics fnsZero cfgZero
      [("A", { spreadBps := 0, series := [10], index := 0 })]
      { settledCash := 100, unsettledCash := 10, reservedCash := 20, feesDue := 1,
        positions := [{ symbol := "A", quantity := 2, avgPrice := 5 }], orders := [], fills := [],
        pendingSettlements := [], lastBorrowFeeDate := 0 } = some m ∧
    m.availableCash = round6 (100 - 20 - 1) ∧
    m.equity = (129 : ℚ) := by
  have h := C4_metrics_invariant fnsZero cfgZero
    [("A", { spreadBps := 0, series := [10], index := 0 })]
    { settledCash := 100, unsettledCash := 10, reservedCash := 20, feesDue := 1,
      positions := [{ symbol := "A", quantity := 2, avgPrice := 5 }], orders := [], fills := [],
      pendingSettlements := [], lastBorrowFeeDate := 0 }
    { longValue := 20, shortValue := 0, marketValue := 20, equity := 129, initialRequired := 0,
      maintenanceRequired := 0, marginExcess := 129, availableCash := 79 }
    [((2 : ℚ), (10 : ℚ))] (by decide) (by decide)
  exact ⟨_, by decide, h.1, rfl⟩

/-- C7 (amended): every replay quote for a configured symbol with positive
mid and nonnegative configured spread satisfies
`bid = round6(mid − mid·spreadBps/20000)`,
`ask = round6(mid + mid·spreadBps/20000)` and `bid ≤ mid ≤ ask`; the
6-dp rounding of bid and ask makes the exact identity
`ask − bid = mid·spreadBps/10000` hold only up to `10⁻⁶` (the
counterexample shows it fails exactly at e.g. mid = 0.001,
spreadBps = 8). -/
theorem C7_quote_spread (F : Fns) (m : Market) (s : String) (e : SymEntry) (q : Quote)
    (mid : ℚ) (hlook : lookupSym m s = some e)
    (hmid : e.series.get? e.index = some mid) (hpos : 0 < mid) (hspread : 0 ≤ e.spreadBps)
    (hq : peekQuote F m s = some q) :
    q.bid = round6 (mid - mid * e.spreadBps / 20000) ∧
    q.ask = round6 (mid + mid * e.spreadBps / 20000) ∧
    q.bid ≤ q.mid ∧ q.mid ≤ q.ask ∧
    |(q.ask - q.bid) - mid * e.spreadBps / 10000| ≤ 1 / 1000000 := by
  simp only [peekQuote, hlook, buildQuote, hmid, Option.some.injEq] at hq
  subst hq
  have harg : mid * e.spreadBps / 10000 / 2 = mid * e.spreadBps / 20000 := by ring
  have hhalf : 0 ≤ mid * e.spreadBps / 20000 := by positivity
  refine ⟨by rw [harg], by rw [harg], ?_, ?_, ?_⟩
  · show round6 (mid - mid * e.spreadBps / 10000 / 2) ≤ round6 mid
    exact round6_mono (by linarith [harg ▸ hhalf])
  · show round6 mid ≤ round6 (mid + mid * e.spreadBps / 10000 / 2)
    exact round6_mono (by linarith [harg ▸ hhalf])
  · show |(round6 (mid + mid * e.spreadBps / 10000 / 2)
        - round6 (mid - mid * e.spreadBps / 10000 / 2)) - mid * e.spreadBps / 10000| ≤ 1 / 1000000
    have ha := abs_round6_sub (mid + mid * e.spreadBps / 10000 / 2)
    have hb := abs_round6_sub (mid - mid * e.spreadBps / 10000 / 2)
    rw [abs_le] at ha hb ⊢
    constructor <;> nlinarith [ha.1, ha.2, hb.1, hb.2]

/-- C7 witness: symbol with mid 2 and spread 8 bps; bid = 1.9992,
ask = 2.0008, and the ordering holds. -/
theorem C7_quote_spread_witness :
    ∃ q : Quote, peekQuote fnsZero
        [("A", { spreadBps := 8, series := [2], index := 0 })] "A" = some q ∧
      q.bid = round6 (2 - 2 * 8 / 20000) ∧ q.ask = round6 (2 + 2 * 8 / 20000) ∧
      q.bid ≤ q.mid ∧ q.mid ≤ q.ask := by
  have h := C7_quote_spread fnsZero [("A", { spreadBps := 8, series := [2], index := 0 })] "A"
    { spreadBps := 8, series := [2], index := 0 } _ 2 rfl rfl (by norm_num) (by norm_num) rfl
  exact ⟨_, rfl, h.1, h.2.1, h.2.2.1, h.2.2.2.1⟩

/-- C7 counterexample: as stated the claim is false. At mid = 0.001 with
spreadBps = 8 both bid and ask round back to 0.001, so
`ask − bid = 0 ≠ mid·spreadBps/10000`; and with a negative configured
spread (nothing in the provider forbids it) `bid ≤ mid` fails as well. -/
theorem C7_counterexample :
    (∃ q : Quote, peekQuote fnsZero
        [("A", { spreadBps := 8, series := [1 / 1000], index := 0 })] "A" = some q ∧
      0 < q.mid ∧ q.ask - q.bid ≠ q.mid * q.spreadBps / 10000) ∧
    (∃ q : Quote, peekQuote fnsZero
        [("B", { spreadBps := -10000, series := [1], index := 0 })] "B" = some q ∧
      0 < q.mid ∧ ¬(q.bid ≤ q.mid)) := by
  exact ⟨⟨_, rfl, by decide, by decide⟩, ⟨_, rfl, by decide, by decide⟩⟩

/-- C8: for a configured symbol, `peekQuote` returns exactly the quote the
immediately following `getQuote` would return (all modelled fields;
the wall-clock timestamp is outside the model) and, being a pure read,
changes no cursor; `getQuote` additionally advances only that symbol's
cursor by one modulo the series length; for an unconfigured symbol both
fail and produce no state change. -/
theorem C8_peek_get_cursor (F : Fns) (m : Market) (s t : String) (e : SymEntry) (q : Quote)
    (hs : lookupSym m s = some e) (hq : peekQuote F m s = some q)
    (ht : lookupSym m t = none) :
    getQuote F m s = some (q, advanceSym m s) ∧
    lookupSym (advanceSym m s) s = some { e with index := (e.index + 1) % e.series.length } ∧
    (∀ u, u ≠ s → lookupSym (advanceSym m s) u = lookupSym m u) ∧
    peekQuote F m t = none ∧ getQuote F m t = none := by
  have hbq : buildQuote F s e = some q := by rw [peekQuote, hs] at hq; exact hq
  refine ⟨?_, lookupSym_advance_self m s e hs,
    fun u hu => lookupSym_advance_other m s u hu, ?_, ?_⟩
  · simp only [getQuote, hs, hbq, Option.map_some']
  · rw [peekQuote, ht]
  · rw [getQuote, ht]

/-- C8 witness: a two-point series at index 0; the cursor moves to 1, the
other symbol stays unknown. -/
theorem C8_peek_get_cursor_witness :
    (∃ q : Quote, peekQuote fnsZero
        [("A", { spreadBps := 0, series := [10, 11], index := 0 })] "A" = some q ∧
      getQuote fnsZero [("A", { spreadBps := 0, series := [10, 11], index := 0 })] "A"
        = some (q, advanceSym [("A", { spreadBps := 0, series := [10, 11], index := 0 })] "A")) ∧
    lookupSym (advanceSym [("A", { spreadBps := 0, series := [10, 11], index := 0 })] "A") "A"
      = some { spreadBps := 0, series := [10, 11], index := 1 } ∧
    getQuote fnsZero [("A", { spreadBps := 0, series := [10, 11], index := 0 })] "B" = none := by
  have h := C8_peek_get_cursor fnsZero [("A", { spreadBps := 0, series := [10, 11], index := 0 })]
    "A" "B" { spreadBps := 0, series := [10, 11], index := 0 } _ rfl rfl rfl
  refine ⟨⟨_, rfl, h.1⟩, ?_, h.2.2.2.2⟩
  rw [h.2.1]
  decide

/-- C6: the fill check. A MARKET effective type always fills; a LIMIT-like
(non-MARKET) effective type fills iff `ask ≤ limitPrice` for the buy sides
and `bid ≥ limitPrice` for the sell sides; in particular a LIMIT buy with
`limitPrice < ask` does not fill; and an order that does not fill is
parked: the execution phase prepends the base order (status OPEN as built
by `placeOrder`) unchanged and returns it, touching nothing in the account
but the order history (balances and positions unchanged). -/
theorem C6_fill_condition (F : Fns) (cfg : Config) (now : Clock) (st : Sim) (base : OrderRec)
    (o : NormOrder) (bypass : Bool) (triggerState effType : String) (eq : Quote) (mkt2 : Market)
    (lp : ℚ)
    (heff : effType = (if triggerState == "TRIGGERED_TO_MARKET" then "MARKET"
      else if triggerState == "TRIGGERED_TO_LIMIT" then "LIMIT" else o.type)) :
    (evaluateFillCondition "MARKET" o eq = true) ∧
    (effType ≠ "MARKET" → o.limitPrice = some lp →
      ((o.side = "BUY" ∨ o.side = "BUY_TO_COVER") →
        (evaluateFillCondition effType o eq = true ↔ eq.ask ≤ lp)) ∧
      ((o.side = "SELL" ∨ o.side = "SELL_SHORT") →
        (evaluateFillCondition effType o eq = true ↔ lp ≤ eq.bid))) ∧
    (o.side = "BUY" → o.limitPrice = some lp → lp < eq.ask →
      evaluateFillCondition "LIMIT" o eq = false) ∧
    (getQuote F st.market o.symbol = some (eq, mkt2) →
      evaluateFillCondition (if triggerState == "TRIGGERED_TO_MARKET" then "MARKET"
        else if triggerState == "TRIGGERED_TO_LIMIT" then "LIMIT" else o.type) o eq = false →
      executionPhase F cfg now st base o bypass triggerState =
        some ({ st with
                market := mkt2
                account := { st.account with orders := base :: st.account.orders } }, base)) := by
  refine ⟨rfl, ?_, ?_, ?_⟩
  · intro hne hlp
    have hbeq : (effType == "MARKET") = false := beq_eq_false_iff_ne.mpr hne
    constructor
    · rintro (hside | hside) <;>
      · rw [evaluateFillCondition, hbeq, hlp]
        simp [sideIsBuy, hside]
    · rintro (hside | hside) <;>
      · rw [evaluateFillCondition, hbeq, hlp]
        simp [sideIsBuy, hside]
  · intro hside hlp hlt
    rw [evaluateFillCondition, hlp]
    simp [sideIsBuy, hside]
    linarith
  · intro hget hfc
    rw [executionPhase, hget]
    simp only [hfc, Bool.not_false, if_pos]

/-- C6 witness: a LIMIT BUY with limit 5 against an ask of 10 does not
fill and is parked OPEN with the account otherwise untouched. -/
theorem C6_fill_condition_witness :
    executionPhase fnsZero cfgZero clock0
      { market := [("A", { spreadBps := 0, series := [10], index := 0 })], rng := [],
        account := emptyAccount }
      { id := 7, symbol := "A", type := "LIMIT", side := "BUY", tif := "DAY", quantity := 1,
        limitPrice := some 5, stopPrice := none, status := "OPEN", reason := none,
        fillPrice := none, fees := 0, triggerState := none, effectiveType := none }
      { type := "LIMIT", side := "BUY", tif := "DAY", quantity := 1, limitPrice := some 5,
        stopPrice := none, symbol := "A" } false "NOT_REQUIRED" =
      some ({ market := advanceSym [("A", { spreadBps := 0, series := [10], index := 0 })] "A"
              rng := []
              account := { emptyAccount with orders :=
                [{ id := 7, symbol := "A", type := "LIMIT", side := "BUY", tif := "DAY",
                   quantity := 1, limitPrice := some 5, stopPrice := none, status := "OPEN",
                   reason := none, fillPrice := none, fees := 0, triggerState := none,
                   effectiveType := none }] } },
            { id := 7, symbol := "A", type := "LIMIT", side := "BUY", tif := "DAY", quantity := 1,
              limitPrice := some 5, stopPrice := none, status := "OPEN", reason := none,
              fillPrice := none, fees := 0, triggerState := none, effectiveType := none }) := by
  have h := (C6_fill_condition fnsZero cfgZero clock0
    { market := [("A", { spreadBps := 0, series := [10], index := 0 })], rng := [],
      account := emptyAccount }
    { id := 7, symbol := "A", type := "LIMIT", side := "BUY", tif := "DAY", quantity := 1,
      limitPrice := some 5, stopPrice := none, status := "OPEN", reason := none,
      fillPrice := none, fees := 0, triggerState := none, effectiveType := none }
    { type := "LIMIT", side := "BUY", tif := "DAY", quantity := 1, limitPrice := some 5,
      stopPrice := none, symbol := "A" } false "NOT_REQUIRED" "LIMIT"
    { symbol := "A", bid := 10, ask := 10, mid := 10, spreadBps := 0, volatilityProxy := 0 }
    (advanceSym [("A", { spreadBps := 0, series := [10], index := 0 })] "A") 5
    (by decide)).2.2.2 (by decide) (by decide)
  exact h

/-- C2 (amended to calls without the margin-check bypass flag): once
slippage pricing has produced `fillPrice`, `notional` and `fees`, the
order is rejected with reason `insufficient available buying power /
margin` exactly when applying the trade to a copy of the account yields
`availableCash < 0` or `equity < initialRequired`; on such a rejection
the account keeps its positions and cash and only the REJECTED order is
prepended, and otherwise the trade is applied to the real account (whose
cash, positions and pending settlements then equal the simulated copy's).
With the internal bypass flag the source skips the simulation entirely,
which refutes the claim as stated — see the counterexample. -/
theorem C2_post_trade_simulation (F : Fns) (cfg : Config) (now : Clock) (st : Sim)
    (base : OrderRec) (o : NormOrder) (triggerState effType : String)
    (fillPrice notional fees : ℚ) (m : Metrics)
    (hm : computeMetrics F cfg st.market
      (applyTrade cfg now st.account o fillPrice notional fees) = some m) :
    ((availableCash (applyTrade cfg now st.account o fillPrice notional fees) < 0 ∨
        m.equity < m.initialRequired) →
      finalizeFill F cfg now st base o false triggerState effType fillPrice notional fees =
        some ({ st with account := { st.account with orders :=
            ({ base with
               status := "REJECTED"
               reason := some "insufficient available buying power / margin" }
              :: st.account.orders) } },
          { base with
            status := "REJECTED"
            reason := some "insufficient available buying power / margin" })) ∧
    (¬(availableCash (applyTrade cfg now st.account o fillPrice notional fees) < 0 ∨
        m.equity < m.initialRequired) →
      ∃ st' res,
        finalizeFill F cfg now st base o false triggerState effType fillPrice notional fees
          = some (st', res) ∧ res.status = "FILLED" ∧
        st'.account.positions = (applyTrade cfg now st.account o fillPrice notional fees).positions ∧
        st'.account.settledCash
          = (applyTrade cfg now st.account o fillPrice notional fees).settledCash ∧
        st'.account.unsettledCash
          = (applyTrade cfg now st.account o fillPrice notional fees).unsettledCash ∧
        st'.account.reservedCash
          = (applyTrade cfg now st.account o fillPrice notional fees).reservedCash ∧
        st'.account.feesDue = (applyTrade cfg now st.account o fillPrice notional fees).feesDue ∧
        st'.account.pendingSettlements
          = (applyTrade cfg now st.account o fillPrice notional fees).pendingSettlements) := by
  constructor
  · intro hcond
    rw [finalizeFill]
    simp only [hm, Bool.false_eq_true, if_false]
    rcases hcond with hav | heq
    · rw [if_pos hav]
      rfl
    · by_cases hav : availableCash (applyTrade cfg now st.account o fillPrice notional fees) < 0
      · rw [if_pos hav]
        rfl
      · rw [if_neg hav, if_pos heq]
        rfl
  · intro hcond
    push_neg at hcond
    rw [finalizeFill]
    simp only [hm, Bool.false_eq_true, if_false]
    rw [if_neg (not_lt.mpr hcond.1), if_neg (not_lt.mpr hcond.2)]
    exact ⟨_, _, rfl, rfl, rfl, rfl, rfl, rfl, rfl, rfl⟩

/-- C2 witness: MARKET BUY of 100 at fill price 10 on an account with 2000
settled cash passes the simulated check and fills. -/
theorem C2_post_trade_simulation_witness :
    ∃ st' res, finalizeFill fnsZero cfgZero clock0
      { market := [("A", { spreadBps := 0, series := [10], index := 0 })], rng := [],
        account := { settledCash := 2000, unsettledCash := 0, reservedCash := 0, feesDue := 0,
                     positions := [], orders := [], fills := [], pendingSettlements := [],
                     lastBorrowFeeDate := 0 } }
      { id := 3, symbol := "A", type := "MARKET", side := "BUY", tif := "DAY", quantity := 100,
        limitPrice := none, stopPrice := none, status := "OPEN", reason := none,
        fillPrice := none, fees := 0, triggerState := none, effectiveType := none }
      { type := "MARKET", side := "BUY", tif := "DAY", quantity := 100, limitPrice := none,
        stopPrice := none, symbol := "A" } false "NOT_REQUIRED" "MARKET" 10 1000 0
      = some (st', res) ∧ res.status = "FILLED" := by
  have h := (C2_post_trade_simulation fnsZero cfgZero clock0
    { market := [("A", { spreadBps := 0, series := [10], index := 0 })], rng := [],
      account := { settledCash := 2000, unsettledCash := 0, reservedCash := 0, feesDue := 0,
                   positions := [], orders := [], fills := [], pendingSettlements := [],
                   lastBorrowFeeDate := 0 } }
    { id := 3, symbol := "A", type := "MARKET", side := "BUY", tif := "DAY", quantity := 100,
      limitPrice := none, stopPrice := none, status := "OPEN", reason := none,
      fillPrice := none, fees := 0, triggerState := none, effectiveType := none }
    { type := "MARKET", side := "BUY", tif := "DAY", quantity := 100, limitPrice := none,
      stopPrice := none, symbol := "A" } "NOT_REQUIRED" "MARKET" 10 1000 0
    { longValue := 1000, shortValue := 0, marketValue := 1000, equity := 3000,
      initialRequired := 0, maintenanceRequired := 0, marginExcess := 3000,
      availableCash := 1000 }
    (by decide)).2 (by decide)
  obtain ⟨st', res, h1, h2, _⟩ := h
  exact ⟨st', res, h1, h2⟩

/-- C2 counterexample to the claim as stated: a call carrying the internal
margin-check bypass flag reaches slippage pricing, the simulated
post-trade state has availableCash < 0, and yet the order is FILLED, not
rejected — the simulation is skipped entirely under the flag. -/
theorem C2_counterexample :
    availableCash (applyTrade cfgZero clock0 emptyAccount
      { type := "MARKET", side := "BUY", tif := "DAY", quantity := 100, limitPrice := none,
        stopPrice := none, symbol := "A" } 10 1000 0) < 0 ∧
    (∃ st' res, finalizeFill fnsZero cfgZero clock0
      { market := [("A", { spreadBps := 0, series := [10], index := 0 })], rng := [],
        account := emptyAccount }
      { id := 4, symbol := "A", type := "MARKET", side := "BUY", tif := "DAY", quantity := 100,
        limitPrice := none, stopPrice := none, status := "OPEN", reason := none,
        fillPrice := none, fees := 0, triggerState := none, effectiveType := none }
      { type := "MARKET", side := "BUY", tif := "DAY", quantity := 100, limitPrice := none,
        stopPrice := none, symbol := "A" } true "NOT_REQUIRED" "MARKET" 10 1000 0
      = some (st', res) ∧ res.status = "FILLED") := by
  exact ⟨by decide, ⟨_, _, rfl, rfl⟩⟩

lemma finalizeFill_rejected (F : Fns) (cfg : Config) (now : Clock) (st : Sim) (base : OrderRec)
    (o : NormOrder) (bypass : Bool) (trig efft : String) (fp nt fe : ℚ) (st' : Sim)
    (res : OrderRec)
    (h : finalizeFill F cfg now st base o bypass trig efft fp nt fe = some (st', res))
    (hres : res.status = "REJECTED") :
    st'.account = { st.account with orders := res :: st.account.orders } ∧
    st'.market = st.market := by
  rw [finalizeFill] at h
  cases bypass with
  | true =>
    simp only [if_true] at h
    rw [Option.some.injEq, Prod.mk.injEq] at h
    obtain ⟨h1, h2⟩ := h
    subst h2
    simp at hres
  | false =>
    simp only [Bool.false_eq_true, if_false] at h
    rcases hcm : computeMetrics F cfg st.market (applyTrade cfg now st.account o fp nt fe) with
      _ | m
    · simp only [hcm] at h
      cases h
    · simp only [hcm] at h
      by_cases hav : availableCash (applyTrade cfg now st.account o fp nt fe) < 0
      · rw [if_pos hav] at h
        simp only [] at h
        rw [Option.some.injEq, Prod.mk.injEq] at h
        obtain ⟨h1, h2⟩ := h
        subst h1
        subst h2
        exact ⟨rfl, rfl⟩
      · rw [if_neg hav] at h
        by_cases heq : m.equity < m.initialRequired
        · rw [if_pos heq] at h
          simp only [] at h
          rw [Option.some.injEq, Prod.mk.injEq] at h
          obtain ⟨h1, h2⟩ := h
          subst h1
          subst h2
          exact ⟨rfl, rfl⟩
        · rw [if_neg heq] at h
          simp only [] at h
          rw [Option.some.injEq, Prod.mk.injEq] at h
          obtain ⟨h1, h2⟩ := h
          subst h2
          simp at hres

lemma executionPhase_rejected (F : Fns) (cfg : Config) (now : Clock) (st : Sim)
    (base : OrderRec) (o : NormOrder) (bypass : Bool) (trig : String) (st' : Sim)
    (res : OrderRec)
    (h : executionPhase F cfg now st base o bypass trig = some (st', res))
    (hres : res.status = "REJECTED") (hbase : base.status = "OPEN") :
    st'.account = { st.account with orders := res :: st.account.orders } := by
  rw [executionPhase] at h
  rcases hq : getQuote F st.market o.symbol with _ | ⟨eq, mkt2⟩
  · rw [hq] at h
    cases h
  · rw [hq] at h
    by_cases hfc : evaluateFillCondition
        (if trig == "TRIGGERED_TO_MARKET" then "MARKET"
         else if trig == "TRIGGERED_TO_LIMIT" then "LIMIT" else o.type) o eq
    · simp only [hfc, Bool.not_true, Bool.false_eq_true, if_false] at h
      exact (finalizeFill_rejected F cfg now _ base o bypass trig _ _ _ _ st' res h hres).1
    · simp only [eq_false_of_ne_true hfc, Bool.not_false, if_true] at h
      rw [Option.some.injEq, Prod.mk.injEq] at h
      obtain ⟨h1, h2⟩ := h
      subst h2
      rw [hbase] at hres
      exact absurd hres (by decide)

/-- C10: every REJECTED result of the `placeOrder` pipeline after the
initial refresh is atomic with respect to the account: relative to the
state the initial refresh left behind, settled/unsettled/reserved cash,
feesDue, positions, fills, pending settlements and the borrow-fee date are
unchanged, and the only modification is the single REJECTED order
prepended to the history. (The shared market cursor may advance — the
model's market state is outside the conclusion.) -/
theorem C10_reject_atomicity (F : Fns) (cfg : Config) (now : Clock) (fuel : ℕ) (st st' : Sim)
    (raw : RawOrder) (res : OrderRec)
    (h : placeOrderAfterRefresh F cfg now (fuel + 1) st raw = some (st', res))
    (hres : res.status = "REJECTED") :
    st'.account.settledCash = st.account.settledCash ∧
    st'.account.unsettledCash = st.account.unsettledCash ∧
    st'.account.reservedCash = st.account.reservedCash ∧
    st'.account.feesDue = st.account.feesDue ∧
    st'.account.positions = st.account.positions ∧
    st'.account.fills = st.account.fills ∧
    st'.account.pendingSettlements = st.account.pendingSettlements ∧
    st'.account.lastBorrowFeeDate = st.account.lastBorrowFeeDate ∧
    st'.account.orders = res :: st.account.orders := by
  have hacc : st'.account = { st.account with orders := res :: st.account.orders } := by
    rw [placeOrderAfterRefresh] at h
    rcases hv : validateOrderByType (normalizeOrderInput raw) with _ | err
    · rw [hv] at h
      by_cases ho : isMarketOpen cfg now
      · simp only [ho, Bool.not_true, Bool.false_eq_true, if_false] at h
        rcases hq : getQuote F st.market (normalizeOrderInput raw).symbol with _ | ⟨quote, mkt1⟩
        · rw [hq] at h
          rw [Option.some.injEq, Prod.mk.injEq] at h
          obtain ⟨h1, h2⟩ := h
          subst h1
          subst h2
          rfl
        · rw [hq] at h
          cases hb : raw.bypassMarginCheck with
          | true =>
            rw [hb] at h
            simp only [if_true] at h
            by_cases hpend : (evaluateTrigger (normalizeOrderInput raw) quote == "PENDING_TRIGGER"
                || evaluateTrigger (normalizeOrderInput raw) quote == "PENDING_LIMIT") = true
            · rw [if_pos hpend] at h
              rw [Option.some.injEq, Prod.mk.injEq] at h
              obtain ⟨h1, h2⟩ := h
              subst h2
              simp at hres
            · rw [if_neg hpend] at h
              rcases hep : executionPhase F cfg now
                  { market := mkt1, rng := (drawRng st.rng).2, account := st.account }
                  { id := idFromDraw (drawRng st.rng).1
                    symbol := (normalizeOrderInput raw).symbol
                    type := (normalizeOrderInput raw).type
                    side := (normalizeOrderInput raw).side
                    tif := (normalizeOrderInput raw).tif
                    quantity := (normalizeOrderInput raw).quantity
                    limitPrice := (normalizeOrderInput raw).limitPrice
                    stopPrice := (normalizeOrderInput raw).stopPrice
                    status := "OPEN"
                    reason := none
                    fillPrice := none
                    fees := 0
                    triggerState := none
                    effectiveType := none }
                  (normalizeOrderInput raw) true
                  (evaluateTrigger (normalizeOrderInput raw) quote) with
                _ | ⟨st3, result⟩
              · rw [hep] at h
                cases h
              · rw [hep] at h
                simp only [] at h
                by_cases hf : (result.status == "FILLED") = true
                · rw [if_pos hf] at h
                  rcases hra : refreshAccount F cfg now fuel st3 with _ | st4
                  · rw [hra] at h
                    cases h
                  · rw [hra] at h
                    rw [Option.some.injEq, Prod.mk.injEq] at h
                    obtain ⟨h1, h2⟩ := h
                    subst h2
                    rw [hres] at hf
                    cases hf
                · rw [if_neg hf] at h
                  rw [Option.some.injEq, Prod.mk.injEq] at h
                  obtain ⟨h1, h2⟩ := h
                  subst h1
                  subst h2
                  exact executionPhase_rejected F cfg now ⟨mkt1, (drawRng st.rng).2, st.account⟩ _ _ _ _ _ _ hep hres rfl
          | false =>
            rw [hb] at h
            simp only [Bool.false_eq_true, if_false] at h
            rcases hcm : computeMetrics F cfg mkt1 st.account with _ | m
            · rw [hcm] at h
              cases h
            · rw [hcm] at h
              simp only [Option.map_some'] at h
              by_cases hdef : hasMaintenanceDeficiency m = true
              · rw [hdef] at h
                rw [Option.some.injEq, Prod.mk.injEq] at h
                obtain ⟨h1, h2⟩ := h
                subst h1
                subst h2
                rfl
              · rw [eq_false_of_ne_true hdef] at h
                by_cases hpend : (evaluateTrigger (normalizeOrderInput raw) quote
                    == "PENDING_TRIGGER"
                    || evaluateTrigger (normalizeOrderInput raw) quote == "PENDING_LIMIT") = true
                · rw [if_pos hpend] at h
                  rw [Option.some.injEq, Prod.mk.injEq] at h
                  obtain ⟨h1, h2⟩ := h
                  subst h2
                  simp at hres
                · rw [if_neg hpend] at h
                  rcases hep : executionPhase F cfg now
                      { market := mkt1, rng := (drawRng st.rng).2, account := st.account }
                      { id := idFromDraw (drawRng st.rng).1
                        symbol := (normalizeOrderInput raw).symbol
                        type := (normalizeOrderInput raw).type
                        side := (normalizeOrderInput raw).side
                        tif := (normalizeOrderInput raw).tif
                        quantity := (normalizeOrderInput raw).quantity
                        limitPrice := (normalizeOrderInput raw).limitPrice
                        stopPrice := (normalizeOrderInput raw).stopPrice
                        status := "OPEN"
                        reason := none
                        fillPrice := none
                        fees := 0
                        triggerState := none
                        effectiveType := none }
                      (normalizeOrderInput raw) false
                      (evaluateTrigger (normalizeOrderInput raw) quote) with
                    _ | ⟨st3, result⟩
                  · rw [hep] at h
                    cases h
                  · rw [hep] at h
                    simp only [] at h
                    by_cases hf : (result.status == "FILLED") = true
                    · rw [if_pos hf] at h
                      rcases hra : refreshAccount F cfg now fuel st3 with _ | st4
                      · rw [hra] at h
                        cases h
                      · rw [hra] at h
                        rw [Option.some.injEq, Prod.mk.injEq] at h
                        obtain ⟨h1, h2⟩ := h
                        subst h2
                        rw [hres] at hf
                        cases hf
                    · rw [if_neg hf] at h
                      rw [Option.some.injEq, Prod.mk.injEq] at h
                      obtain ⟨h1, h2⟩ := h
                      subst h1
                      subst h2
                      exact executionPhase_rejected F cfg now ⟨mkt1, (drawRng st.rng).2, st.account⟩ _ _ _ _ _ _ hep hres rfl
      · simp only [eq_false_of_ne_true ho, Bool.not_false, if_true] at h
        rw [Option.some.injEq, Prod.mk.injEq] at h
        obtain ⟨h1, h2⟩ := h
        subst h1
        subst h2
        rfl
    · rw [hv] at h
      rw [Option.some.injEq, Prod.mk.injEq] at h
      obtain ⟨h1, h2⟩ := h
      subst h1
      subst h2
      rfl
  rw [hacc]
  exact ⟨rfl, rfl, rfl, rfl, rfl, rfl, rfl, rfl, rfl⟩

/-- C10 witness: an order with an unsupported type is rejected and only
the REJECTED order is prepended; positions and cash are untouched. -/
theorem C10_reject_atomicity_witness :
    placeOrderAfterRefresh fnsZero cfgZero clock0 1
      { market := [("A", { spreadBps := 0, series := [10], index := 0 })], rng := [],
        account := emptyAccount }
      { type := some "BOGUS", side := some "BUY", tif := none, quantity := 1,
        limitPrice := none, stopPrice := none, symbol := some "A", bypassMarginCheck := false }
      = some
        ({ market := [("A", { spreadBps := 0, series := [10], index := 0 })], rng := [],
           account := { emptyAccount with orders :=
            [{ id := 0, symbol := "A", type := "BOGUS", side := "BUY", tif := "DAY",
               quantity := 1, limitPrice := none, stopPrice := none, status := "REJECTED",
               reason := some "unsupported order type", fillPrice := none, fees := 0,
               triggerState := none, effectiveType := none }] } },
         { id := 0, symbol := "A", type := "BOGUS", side := "BUY", tif := "DAY", quantity := 1,
           limitPrice := none, stopPrice := none, status := "REJECTED",
           reason := some "unsupported order type", fillPrice := none, fees := 0,
           triggerState := none, effectiveType := none }) ∧
    ({ market := [("A", { spreadBps := 0, series := [10], index := 0 })], rng := ([] : Rng),
       account := { emptyAccount with orders :=
        [{ id := 0, symbol := "A", type := "BOGUS", side := "BUY", tif := "DAY",
           quantity := 1, limitPrice := none, stopPrice := none, status := "REJECTED",
           reason := some "unsupported order type", fillPrice := none, fees := 0,
           triggerState := none, effectiveType := none }] } } : Sim).account.positions
      = emptyAccount.positions := by
  have h := C10_reject_atomicity fnsZero cfgZero clock0 0
    { market := [("A", { spreadBps := 0, series := [10], index := 0 })], rng := [],
      account := emptyAccount }
    { market := [("A", { spreadBps := 0, series := [10], index := 0 })], rng := [],
      account := { emptyAccount with orders :=
        [{ id := 0, symbol := "A", type := "BOGUS", side := "BUY", tif := "DAY",
           quantity := 1, limitPrice := none, stopPrice := none, status := "REJECTED",
           reason := some "unsupported order type", fillPrice := none, fees := 0,
           triggerState := none, effectiveType := none }] } }
    { type := some "BOGUS", side := some "BUY", tif := none, quantity := 1,
      limitPrice := none, stopPrice := none, symbol := some "A", bypassMarginCheck := false }
    { id := 0, symbol := "A", type := "BOGUS", side := "BUY", tif := "DAY", quantity := 1,
      limitPrice := none, stopPrice := none, status := "REJECTED",
      reason := some "unsupported order type", fillPrice := none, fees := 0,
      triggerState := none, effectiveType := none }
    (by decide) (by decide)
  exact ⟨by decide, h.2.2.2.2.1⟩

/-! C5: forced liquidation of the largest position on a maintenance
deficiency. -/

lemma selectLargest_mem (w : Position × ℚ) (ws : List (Position × ℚ)) :
    selectLargest w ws ∈ w :: ws := by
  induction ws generalizing w with
  | nil => simp [selectLargest]
  | cons x rest ih =>
    have heq : selectLargest w (x :: rest)
        = selectLargest (if w.2 < x.2 then x else w) rest := rfl
    rw [heq]
    rcases List.mem_cons.mp (ih (if w.2 < x.2 then x else w)) with h1 | h1
    · rw [h1]
      by_cases hwx : w.2 < x.2
      · rw [if_pos hwx]; simp
      · rw [if_neg hwx]; simp
    · simp [List.mem_cons, h1]

lemma selectLargest_max (w : Position × ℚ) (ws : List (Position × ℚ)) :
    ∀ x ∈ w :: ws, x.2 ≤ (selectLargest w ws).2 := by
  induction ws generalizing w with
  | nil =>
    intro x hx
    rw [List.mem_singleton] at hx
    rw [hx]
    exact le_refl _
  | cons y rest ih =>
    intro x hx
    have heq : selectLargest w (y :: rest)
        = selectLargest (if w.2 < y.2 then y else w) rest := rfl
    rw [heq]
    have hb1 : w.2 ≤ (if w.2 < y.2 then y else w).2 := by
      by_cases hwy : w.2 < y.2
      · rw [if_pos hwy]; exact le_of_lt hwy
      · rw [if_neg hwy]
    have hb2 : y.2 ≤ (if w.2 < y.2 then y else w).2 := by
      by_cases hwy : w.2 < y.2
      · rw [if_pos hwy]
      · rw [if_neg hwy]; exact le_of_not_lt hwy
    have hbest : (if w.2 < y.2 then y else w).2
        ≤ (selectLargest (if w.2 < y.2 then y else w) rest).2 :=
      ih _ _ (List.mem_cons_self _ _)
    rcases List.mem_cons.mp hx with h1 | h1
    · rw [h1]; exact le_trans hb1 hbest
    · rcases List.mem_cons.mp h1 with h2 | h2
      · rw [h2]; exact le_trans hb2 hbest
      · exact ih _ _ (List.mem_cons_of_mem _ h2)

/-- C5: whenever forced liquidation is enabled and the refresh finds a
maintenance deficiency on an account holding at least one position (each
evaluation step succeeding), the selected target attains the largest
|quantity·mid| among the valued positions, and the refresh equals the
submission of exactly one internal MARKET IOC order carrying the
margin-check bypass flag for the target's full absolute quantity on the
opposite side (SELL for a long target, BUY_TO_COVER for a short one),
followed — only when that order comes back REJECTED — by prepending the
synthetic REJECTED `margin_call_forced_liquidation_failed` marker to the
order history, with no further liquidation attempt in the refresh. -/
theorem C5_forced_liquidation (F : Fns) (cfg : Config) (now : Clock) (fuel : ℕ) (st : Sim)
    (a2 : Account) (m : Metrics) (p0 : Position) (ps : List Position)
    (w : Position × ℚ) (ws : List (Position × ℚ))
    (henb : cfg.forceLiquidationEnabled = true)
    (hfees : applyBorrowFeesIfNeeded F cfg now st.market (settleDueEntries now st.account)
      = some a2)
    (hm : computeMetrics F cfg st.market a2 = some m)
    (hdef : hasMaintenanceDeficiency m = true)
    (hpos : a2.positions = p0 :: ps)
    (hval : (p0 :: ps).mapM
        (fun p => (peekQuote F st.market p.symbol).map (fun q => (p, |p.quantity * q.mid|)))
      = some (w :: ws)) :
    selectLargest w ws ∈ w :: ws ∧
    (∀ x ∈ w :: ws, x.2 ≤ (selectLargest w ws).2) ∧
    refreshAccount F cfg now (fuel + 1 + 1) st =
      match placeOrder F cfg now fuel { st with account := a2 }
          { type := some "MARKET"
            side := some (if 0 < (selectLargest w ws).1.quantity then "SELL" else "BUY_TO_COVER")
            tif := some "IOC"
            quantity := |(selectLargest w ws).1.quantity|
            limitPrice := none
            stopPrice := none
            symbol := some (selectLargest w ws).1.symbol
            bypassMarginCheck := true } with
      | none => none
      | some (st1, forced) =>
        if forced.status == "REJECTED" then
          some { st1 with account := { st1.account with orders :=
            ({ id := -1
               symbol := (selectLargest w ws).1.symbol
               type := "MARKET"
               side := if 0 < (selectLargest w ws).1.quantity then "SELL" else "BUY_TO_COVER"
               tif := "IOC"
               quantity := |(selectLargest w ws).1.quantity|
               limitPrice := none
               stopPrice := none
               status := "REJECTED"
               reason := some "margin_call_forced_liquidation_failed"
               fillPrice := none
               fees := 0
               triggerState := none
               effectiveType := none } : OrderRec) :: st1.account.orders } }
        else some st1 := by
  refine ⟨selectLargest_mem w ws, selectLargest_max w ws, ?_⟩
  rw [refreshAccount]
  simp only [hfees, henb, if_true, hm, hdef]
  rw [forceLiquidateLargestPosition]
  simp only [hpos, hval]

/-- Configuration for the forced-liquidation witness: liquidation enabled
with a 100 % long maintenance ratio; everything else as `cfgZero`. -/
def cfgC5 : Config :=
  { cfgZero with forceLiquidationEnabled := true
                 maintenanceMarginLong := 1 }

/-- Account for the forced-liquidation witness: long 10 shares of `A` at
average price 10 with settled cash −50, nothing pending, borrow fees
already accrued today. -/
def acctC5 : Account :=
  { settledCash := -50, unsettledCash := 0, reservedCash := 0, feesDue := 0,
    positions := [{ symbol := "A", quantity := 10, avgPrice := 10 }],
    orders := [], fills := [], pendingSettlements := [], lastBorrowFeeDate := 0 }

/-- Simulator state for the forced-liquidation witness: `A` trades flat at
mid 10 with zero spread. -/
def simC5 : Sim :=
  { market := [("A", { spreadBps := 0, series := [10], index := 0 })], rng := [],
    account := acctC5 }

/-- Metrics of `acctC5` at mid 10: equity 50 against a maintenance
requirement of 100. -/
def mC5 : Metrics :=
  { longValue := 100, shortValue := 0, marketValue := 100, equity := 50,
    initialRequired := 0, maintenanceRequired := 100, marginExcess := -50,
    availableCash := -50 }

/-- C5 witness: on the deficient long account the refresh selects the sole
position `A` (trivially the largest) and reduces to the single forced
internal SELL; at fuel 0 that inner `placeOrder` is out of fuel, so both
sides evaluate to `none`. -/
theorem C5_forced_liquidation_witness :
    selectLargest ({ symbol := "A", quantity := 10, avgPrice := 10 }, 100) [] ∈
      [(({ symbol := "A", quantity := 10, avgPrice := 10 } : Position), (100 : ℚ))] ∧
    (∀ x ∈ [(({ symbol := "A", quantity := 10, avgPrice := 10 } : Position), (100 : ℚ))],
      x.2 ≤ (selectLargest ({ symbol := "A", quantity := 10, avgPrice := 10 }, 100) []).2) ∧
    refreshAccount fnsZero cfgC5 clock0 (0 + 1 + 1) simC5 =
      match placeOrder fnsZero cfgC5 clock0 0 { simC5 with account := acctC5 }
          { type := some "MARKET"
            side := some (if 0 < (selectLargest
              ({ symbol := "A", quantity := 10, avgPrice := 10 }, 100) []).1.quantity
              then "SELL" else "BUY_TO_COVER")
            tif := some "IOC"
            quantity := |(selectLargest
              ({ symbol := "A", quantity := 10, avgPrice := 10 }, 100) []).1.quantity|
            limitPrice := none
            stopPrice := none
            symbol := some (selectLargest
              ({ symbol := "A", quantity := 10, avgPrice := 10 }, 100) []).1.symbol
            bypassMarginCheck := true } with
      | none => none
      | some (st1, forced) =>
        if forced.status == "REJECTED" then
          some { st1 with account := { st1.account with orders :=
            ({ id := -1
               symbol := (selectLargest
                 ({ symbol := "A", quantity := 10, avgPrice := 10 }, 100) []).1.symbol
               type := "MARKET"
               side := if 0 < (selectLargest
                 ({ symbol := "A", quantity := 10, avgPrice := 10 }, 100) []).1.quantity
                 then "SELL" else "BUY_TO_COVER"
               tif := "IOC"
               quantity := |(selectLargest
                 ({ symbol := "A", quantity := 10, avgPrice := 10 }, 100) []).1.quantity|
               limitPrice := none
               stopPrice := none
               status := "REJECTED"
               reason := some "margin_call_forced_liquidation_failed"
               fillPrice := none
               fees := 0
               triggerState := none
               effectiveType := none } : OrderRec) :: st1.account.orders } }
        else some st1 :=
  C5_forced_liquidation fnsZero cfgC5 clock0 0 simC5 acctC5 mC5
    { symbol := "A", quantity := 10, avgPrice := 10 } []
    ({ symbol := "A", quantity := 10, avgPrice := 10 }, 100) []
    rfl (by decide) (by decide) (by decide) (by decide) (by decide)


end TS
